import Mathlib

/-!
# Verification of the `condition` package (miaogaolin/condition)

A shallow embedding of `condition.go`: the parse tree produced by the generated
ANTLR parser, the visitor `condition` with its mutable `Err` field (threaded as
explicit state), and `Condition.Validate`.

The Go standard-library functions whose bodies are not part of the repository
(`strconv.ParseFloat`, the `%v` formatting of a `float64`, `json.Unmarshal`,
`strings.ToLower`) are taken as a parameter `GoLib`; every theorem holds for
all such libraries.  `sampleLib` is one executable instance used to evaluate
the definitions on concrete inputs.
-/

namespace ConditionPkg

/-! ## Go values -/

/-- An IEEE-754 binary64 value, as Go's `float64`: sign bit, biased exponent
(11 bits) and fraction (52 bits). -/
structure Float64 where
  sign : Bool
  exponent : Fin 2048
  mantissa : Fin 4503599627370496
  deriving DecidableEq, Repr

namespace Float64

/-- NaN: all exponent bits set and a non-zero fraction. -/
def isNaN (f : Float64) : Bool :=
  f.exponent.val == 2047 && f.mantissa.val != 0

/-- Sign-magnitude key of a non-NaN value: binary64 values other than NaN are
ordered like the integers `± (exponent * 2^52 + mantissa)`; both zeros get key 0
and the infinities get the extreme keys. -/
def key (f : Float64) : Int :=
  let mag : Int := (f.exponent.val * 4503599627370496 + f.mantissa.val : Nat)
  if f.sign then -mag else mag

/-- Magnitude of a finite value in units of `2^-1074`, the least subnormal:
`mantissa * 2^-1074` for a subnormal, `(2^52 + mantissa) * 2^(exponent - 1075)` for
a normal value. -/
def scaledMag (f : Float64) : Nat :=
  if f.exponent.val = 0 then f.mantissa.val
  else (4503599627370496 + f.mantissa.val) * 2 ^ (f.exponent.val - 1)

/-- The real number denoted by a finite value, in units of `2^-1074`. -/
def scaled (f : Float64) : Int :=
  if f.sign then -(f.scaledMag : Int) else (f.scaledMag : Int)

/-- Go `x < y` on float64: false when either side is NaN. -/
def lt (x y : Float64) : Bool := !x.isNaN && !y.isNaN && decide (x.key < y.key)

/-- Go `x <= y` on float64: false when either side is NaN. -/
def le (x y : Float64) : Bool := !x.isNaN && !y.isNaN && decide (x.key ≤ y.key)

/-- Go `x > y` on float64. -/
def gt (x y : Float64) : Bool := lt y x

/-- Go `x >= y` on float64. -/
def ge (x y : Float64) : Bool := le y x

/-- Go `x == y` on float64: false when either side is NaN, `+0 == -0`. -/
def eq (x y : Float64) : Bool := !x.isNaN && !y.isNaN && decide (x.key = y.key)

/-- Go `x != y` on float64: the negation of `==` (true when either side is NaN). -/
def ne (x y : Float64) : Bool := !eq x y

end Float64

/-- Go `error` values, as far as the package can observe them: the message and
the chain followed by `errors.Cause`. -/
inductive GoError where
  /-- Result of `errors.New(msg)` of github.com/pkg/errors (a sentinel such as `ErrParseData`). -/
  | fundamental (msg : String)
  /-- Result of `errors.Wrap(cause, msg)` of github.com/pkg/errors (the stack trace is not modelled). -/
  | withMessage (cause : GoError) (msg : String)
  /-- An error without a `Cause` method, given by its message: `fmt.Errorf(...)`,
  `*strconv.NumError`, `*json.SyntaxError`, a listener's syntax error. -/
  | errorString (msg : String)
  deriving DecidableEq, Repr

namespace GoError

/-- The `Error()` method. -/
def Error : GoError → String
  | fundamental msg => msg
  | withMessage cause msg => msg ++ ": " ++ cause.Error
  | errorString msg => msg

/-- The function `errors.Cause`: follow `Cause()` while the error has one. -/
def Cause : GoError → GoError
  | withMessage cause _ => cause.Cause
  | e => e

end GoError

/-- Source: `errors.Wrap(err, message)`. -/
def Wrap (err : GoError) (message : String) : GoError := GoError.withMessage err message

/-- Source: `ErrParseData = errors.New("parse data error")`. -/
def ErrParseData : GoError := GoError.fundamental "parse data error"

/-- Source: `ErrNotFoundCol = errors.New("not field")`. -/
def ErrNotFoundCol : GoError := GoError.fundamental "not field"

/-- A Go `interface{}` value.  The package inspects a value only through
`v == nil`, the type assertion `.(bool)` and `fmt.Sprintf("%v", v)`, so a value
of any other dynamic type (slice, map, struct, ...) is kept as its `%v` text. -/
inductive Value where
  | nil
  | bool (b : Bool)
  | str (s : String)
  | int (i : Int)
  | float64 (f : Float64)
  | other (text : String)
  deriving DecidableEq, Repr

/-- The Go map `map[string]interface{}`; `List.lookup` is the map access `data[txt]`. -/
abbrev Record := List (String × Value)

/-- The standard-library functions the package calls and whose code is outside
the repository. -/
structure GoLib where
  /-- The text `fmt.Sprintf("%v", f)` of a float64. -/
  FormatFloat : Float64 → String
  /-- The call `strconv.ParseFloat(s, 64)`: the error, or the value when the error is nil. -/
  ParseFloat : String → Except GoError Float64
  /-- The call `json.Unmarshal([]byte(s), &data)` with `data []interface{}`. -/
  Unmarshal : String → Except GoError (List Value)
  /-- The function `strings.ToLower`. -/
  ToLower : String → String
  /-- The text `<nil>` is not a number for `strconv.ParseFloat`. -/
  ParseFloat_nil : ∃ e, ParseFloat "<nil>" = Except.error e

/-- Source: `fmt.Sprintf("%v", v)`. -/
def Sprint (lib : GoLib) : Value → String
  | .nil => "<nil>"
  | .bool b => if b then "true" else "false"
  | .str s => s
  | .int i => toString i
  | .float64 f => lib.FormatFloat f
  | .other text => text

/-- Source: `strings.Trim(s, cutset)`: drop every leading and trailing character
that occurs in `cutset`. -/
def Trim (s cutset : String) : String :=
  let inCut : Char → Bool := fun c => cutset.data.contains c
  String.mk ((s.data.dropWhile inCut).reverse.dropWhile inCut).reverse

/-- Whether `sub` occurs in `cs` as a contiguous block. -/
def hasInfix : List Char → List Char → Bool
  | [], sub => sub.isEmpty
  | c :: cs, sub => sub.isPrefixOf (c :: cs) || hasInfix cs sub

/-- Source: `strings.Contains(s, substr)`. -/
def Contains (s substr : String) : Bool := hasInfix s.data substr.data

/-- Source: `strings.ReplaceAll(s, " ", "")`: delete every space character. -/
def ReplaceAllSpaces (s : String) : String :=
  String.mk (s.data.filter (fun c => c != ' '))

/-! ## The parse tree -/

/-- Parse-tree node of rule `conditionKey`: the text of its `COL` token (also the
node's `GetText()`, the rule having that single token) and the column of its
start token. -/
structure ConditionKeyContext where
  COL : String
  column : Nat
  deriving DecidableEq, Repr

/-- Source: `ctx.GetText()` on a `conditionKey` node. -/
def ConditionKeyContext.GetText (ctx : ConditionKeyContext) : String := ctx.COL

/-- The labelled alternatives of rule `expr` (`IExprContext`); token and literal
nodes are kept as their source text. -/
inductive ExprContext where
  | GetNumExpr (key : ConditionKeyContext) (op : String) (number : String)
  | Parent (expr : ExprContext)
  | GetStringExpr (key : ConditionKeyContext) (op : String) (string : String)
  | GetArrayExpr (key : ConditionKeyContext) (op : String) (array : String)
  | AndOr (expr0 : ExprContext) (op : String) (expr1 : ExprContext)
  deriving DecidableEq, Repr

/-- Source: `ctx.GetText()` on an expression node: the texts of its tokens in order. -/
def ExprContext.GetText : ExprContext → String
  | .GetNumExpr key op number => key.GetText ++ op ++ number
  | .Parent expr => "(" ++ expr.GetText ++ ")"
  | .GetStringExpr key op string => key.GetText ++ op ++ string
  | .GetArrayExpr key op array => key.GetText ++ op ++ array
  | .AndOr expr0 op expr1 => expr0.GetText ++ op ++ expr1.GetText

/-- Source: `type Condition struct { tree IExprContext }`. -/
structure Condition where
  tree : ExprContext
  deriving DecidableEq, Repr

/-- Source: `type condition struct { ...; data map[string]interface{}; Err error }`. -/
structure condition where
  data : Record
  Err : Option GoError
  deriving DecidableEq, Repr

/-! ## The visitor -/

/-- Source: `VisitConditionKey`. -/
def VisitConditionKey (p : condition) (ctx : ConditionKeyContext) : Value × condition :=
  let txt := ctx.COL
  match p.data.lookup txt with
  | none =>
    let column := ctx.column
    (Value.nil,
      { p with Err := some (Wrap ErrNotFoundCol
          ("column:" ++ toString column ++ ", '" ++ txt ++ "' isn't exist")) })
  | some v => (v, p)

/-- Source: `VisitGetNumExpr`. -/
def VisitGetNumExpr (lib : GoLib) (p : condition)
    (key : ConditionKeyContext) (op number : String) : Value × condition :=
  let keySource := key.GetText
  let (v, p) := VisitConditionKey p key
  if v = Value.nil then (Value.nil, p) else
  match lib.ParseFloat (Sprint lib v) with
  | .error err =>
    (Value.bool false, { p with Err := some (Wrap ErrParseData (keySource ++ " " ++ err.Error)) })
  | .ok colVal =>
    let rightData := Trim number "\""
    match lib.ParseFloat rightData with
    | .error err =>
      (Value.bool false, { p with Err := some (Wrap ErrParseData (keySource ++ " " ++ err.Error)) })
    | .ok data =>
      let code := op
      if code = ">" then (Value.bool (Float64.gt colVal data), p)
      else if code = "<" then (Value.bool (Float64.lt colVal data), p)
      else if code = "==" then (Value.bool (Float64.eq colVal data), p)
      else if code = "!=" then (Value.bool (Float64.ne colVal data), p)
      else if code = ">=" then (Value.bool (Float64.ge colVal data), p)
      else if code = "<=" then (Value.bool (Float64.le colVal data), p)
      else (Value.bool false, p)

/-- Source: `VisitGetStringExpr`. -/
def VisitGetStringExpr (lib : GoLib) (p : condition)
    (key : ConditionKeyContext) (op string : String) : Value × condition :=
  let (v, p) := VisitConditionKey p key
  if v = Value.nil then (Value.nil, p) else
  let colVal := Sprint lib v
  let data := Trim string "\""
  let code := op
  if code = "=~" then (Value.bool (Contains colVal data), p)
  else if code = "!~" then (Value.bool (!Contains colVal data), p)
  else if code = "==" then (Value.bool (decide (colVal = data)), p)
  else if code = "!=" then (Value.bool (decide (colVal ≠ data)), p)
  else (Value.bool false, p)

/-- Source: `VisitGetArrayExpr`. -/
def VisitGetArrayExpr (lib : GoLib) (p : condition)
    (key : ConditionKeyContext) (op array : String) : Value × condition :=
  let keySource := key.GetText
  let (colVal, p) := VisitConditionKey p key
  if colVal = Value.nil then (Value.bool false, p) else
  match lib.Unmarshal array with
  | .error err =>
    (Value.bool false, { p with Err := some (Wrap ErrParseData (keySource ++ " " ++ err.Error)) })
  | .ok data =>
    let code := lib.ToLower (ReplaceAllSpaces op)
    if code = "in" then
      (Value.bool (data.any (fun v => decide (Sprint lib colVal = Sprint lib v))), p)
    else if code = "notin" then
      (Value.bool (!data.any (fun v => decide (Sprint lib colVal = Sprint lib v))), p)
    else (Value.bool false, p)

/-- Source: the type assertion `x.(bool)`; `none` is the run-time panic of a failed assertion. -/
def assertBool : Value → Option Bool
  | .bool b => some b
  | _ => none

/-- Source: `Visit` (`tree.Accept(p)` dispatches on the node's alternative), with
`VisitParent` and `VisitAndOr` in place.  `none` is a run-time panic. -/
def Visit (lib : GoLib) : ExprContext → condition → Option (Value × condition)
  | .GetNumExpr key op number, p => some (VisitGetNumExpr lib p key op number)
  | .Parent expr, p => Visit lib expr p
  | .GetStringExpr key op string, p => some (VisitGetStringExpr lib p key op string)
  | .GetArrayExpr key op array, p => some (VisitGetArrayExpr lib p key op array)
  | .AndOr e0 opTok e1, p =>
    match Visit lib e0 p with
    | none => none
    | some (expr0, p) =>
      match Visit lib e1 p with
      | none => none
      | some (expr1, p) =>
        if expr0 = Value.nil then
          some (Value.nil, { p with Err := some (GoError.errorString ("err," ++ e0.GetText)) })
        else if expr1 = Value.nil then
          some (Value.nil, { p with Err := some (GoError.errorString ("err," ++ e1.GetText)) })
        else
          let op := lib.ToLower opTok
          if op = "and" then
            match assertBool expr0 with
            | none => none
            | some b0 =>
              if b0 then (assertBool expr1).map (fun b1 => (Value.bool b1, p))
              else some (Value.bool false, p)
          else if op = "or" then
            match assertBool expr0 with
            | none => none
            | some b0 =>
              if b0 then some (Value.bool true, p)
              else (assertBool expr1).map (fun b1 => (Value.bool b1, p))
          else some (Value.bool false, p)

/-- Source: `Condition.Validate`.  `none` is a run-time panic; otherwise the pair
`(bool, error)` the method returns. -/
def Validate (lib : GoLib) (c : Condition) (data : Record) : Option (Bool × Option GoError) :=
  let visitor : condition := { data := data, Err := none }
  match Visit lib c.tree visitor with
  | none => none
  | some (res, visitor) =>
    match visitor.Err with
    | some err => some (false, some err)
    | none => (assertBool res).map (fun b => (b, none))

/-! ## A sample library

`sampleLib` is an executable `GoLib`.  It agrees with the Go standard library on
ASCII operator tokens, on decimal integer texts (and on texts that are not Go
floating-point literals, which are rejected with Go's message), on float64
values that are NaN, infinite, zero or integers below `2^53`, and on JSON arrays
whose elements are integers, `true`, `false`, `null` and strings without escape
sequences.  Fractions, exponents, hexadecimal literals, nested arrays and
objects are outside this fragment. -/

/-- Value of an ASCII decimal digit. -/
def digitValue (c : Char) : Option Nat :=
  if 48 ≤ c.toNat ∧ c.toNat ≤ 57 then some (c.toNat - 48) else none

/-- The number written by a non-empty list of decimal digits. -/
def parseDigits : List Char → Option Nat
  | [] => none
  | cs => cs.foldl (fun acc c =>
      match acc, digitValue c with
      | some n, some d => some (10 * n + d)
      | _, _ => none) (some 0)

/-- Position of the highest set bit of `n`, by halving at most `fuel` times. -/
def log2Fuel : Nat → Nat → Nat
  | 0, _ => 0
  | fuel + 1, n => if n < 2 then 0 else log2Fuel fuel (n / 2) + 1

/-- The float64 nearest to `± n` (round to nearest, ties to even), or `none` when
the magnitude overflows the binary64 range. -/
def Float64.ofNat (neg : Bool) (n : Nat) : Option Float64 :=
  if n = 0 then some ⟨neg, 0, 0⟩ else
  let e := log2Fuel n n
  if e ≤ 52 then
    some ⟨neg, Fin.ofNat (1023 + e), Fin.ofNat ((n - 2 ^ e) * 2 ^ (52 - e))⟩
  else
    let shift := e - 52
    let q := n / 2 ^ shift
    let r := n % 2 ^ shift
    let half := 2 ^ (shift - 1)
    let q := if r > half ∨ (r = half ∧ q % 2 = 1) then q + 1 else q
    let (e, q) := if q = 2 ^ 53 then (e + 1, 2 ^ 52) else (e, q)
    if e ≥ 1024 then none else some ⟨neg, Fin.ofNat (1023 + e), Fin.ofNat (q - 2 ^ 52)⟩

/-- Sample `strconv.ParseFloat(s, 64)`: an optional sign followed by decimal digits. -/
def sampleParseFloat (s : String) : Except GoError Float64 :=
  let signed : Bool × List Char :=
    match s.data with
    | '-' :: rest => (true, rest)
    | '+' :: rest => (false, rest)
    | rest => (false, rest)
  match parseDigits signed.2 with
  | none =>
    Except.error (GoError.errorString
      ("strconv.ParseFloat: parsing \"" ++ s ++ "\": invalid syntax"))
  | some n =>
    match Float64.ofNat signed.1 n with
    | some f => Except.ok f
    | none =>
      Except.error (GoError.errorString
        ("strconv.ParseFloat: parsing \"" ++ s ++ "\": value out of range"))

/-- Drop trailing `0` characters. -/
def stripZeros (cs : List Char) : List Char :=
  (cs.reverse.dropWhile (fun c => c == '0')).reverse

/-- Sample `%v` text of a float64: `NaN`, `+Inf`, `-Inf`, the zeros, and integers
below `2^53` in Go's shortest `%g` form (exponent form from `1e+06` on); any other
value is shown in the binary-exponent form of `strconv.FormatFloat(f, 'b', -1, 64)`. -/
def sampleFormatFloat (f : Float64) : String :=
  let sgn := if f.sign then "-" else ""
  if f.exponent.val = 2047 then
    if f.mantissa.val = 0 then (if f.sign then "-Inf" else "+Inf") else "NaN"
  else if f.exponent.val = 0 ∧ f.mantissa.val = 0 then sgn ++ "0"
  else
    let e := f.exponent.val
    let m := 4503599627370496 + f.mantissa.val
    if 1023 ≤ e ∧ e ≤ 1075 ∧ m % 2 ^ (1075 - e) = 0 then
      let n := m / 2 ^ (1075 - e)
      let ds := (toString n).data
      if ds.length ≤ 6 then sgn ++ String.mk ds
      else
        let frac := stripZeros ds.tail
        let ex := toString (ds.length - 1)
        sgn ++ String.mk (ds.take 1) ++ (if frac.isEmpty then "" else "." ++ String.mk frac)
          ++ "e+" ++ (if ex.length < 2 then "0" ++ ex else ex)
    else
      sgn ++ toString (if e = 0 then f.mantissa.val else m) ++ "p"
        ++ (if e ≤ 1075 then "-" ++ toString (1075 - max e 1) else "+" ++ toString (e - 1075))

/-- Drop leading JSON white space. -/
def skipSpace (cs : List Char) : List Char :=
  cs.dropWhile (fun c => c == ' ' || c == '\t' || c == '\n' || c == '\r')

/-- Read the rest of a JSON string after its opening quote (no escape sequences). -/
def jsonString : List Char → List Char → Option (String × List Char)
  | [], _ => none
  | c :: rest, acc =>
    if c = '"' then some (String.mk acc.reverse, rest)
    else if c = '\\' ∨ c.toNat < 32 then none
    else jsonString rest (c :: acc)

/-- A JSON syntax error at character `c`. -/
def jsonInvalid (c : Char) (context : String) : GoError :=
  GoError.errorString ("invalid character '" ++ String.mk [c] ++ "' " ++ context)

/-- The error `unexpected end of JSON input`. -/
def jsonEnd : GoError := GoError.errorString "unexpected end of JSON input"

/-- Read one JSON scalar: a string, an integer, `true`, `false` or `null`. -/
def jsonScalar (cs : List Char) : Except GoError (Value × List Char) :=
  match cs with
  | [] => Except.error jsonEnd
  | '"' :: rest =>
    match jsonString rest [] with
    | some (s, rest) => Except.ok (Value.str s, rest)
    | none => Except.error jsonEnd
  | 't' :: 'r' :: 'u' :: 'e' :: rest => Except.ok (Value.bool true, rest)
  | 'f' :: 'a' :: 'l' :: 's' :: 'e' :: rest => Except.ok (Value.bool false, rest)
  | 'n' :: 'u' :: 'l' :: 'l' :: rest => Except.ok (Value.nil, rest)
  | c :: rest =>
    let body := if c = '-' then rest else c :: rest
    let ds := body.takeWhile (fun d => (digitValue d).isSome)
    let wellFormed := !ds.isEmpty && (ds.length == 1 || ds.head? != some '0')
    match wellFormed, parseDigits ds with
    | true, some n =>
      match Float64.ofNat (c == '-') n with
      | some f => Except.ok (Value.float64 f, body.drop ds.length)
      | none => Except.error (GoError.errorString
          "json: cannot unmarshal number into Go value of type float64")
    | _, _ => Except.error (jsonInvalid c "looking for beginning of value")

/-- Read the elements of a JSON array after an element separator. -/
def jsonElements : Nat → List Char → List Value → Except GoError (List Value)
  | 0, _, _ => Except.error jsonEnd
  | fuel + 1, cs, acc =>
    match jsonScalar (skipSpace cs) with
    | Except.error e => Except.error e
    | Except.ok (v, rest) =>
      match skipSpace rest with
      | [] => Except.error jsonEnd
      | ',' :: rest => jsonElements fuel rest (v :: acc)
      | ']' :: rest =>
        match skipSpace rest with
        | [] => Except.ok (v :: acc).reverse
        | c :: _ => Except.error (jsonInvalid c "after top-level value")
      | c :: _ => Except.error (jsonInvalid c "after array element")

/-- Sample `json.Unmarshal` into a `[]interface{}`. -/
def sampleUnmarshal (s : String) : Except GoError (List Value) :=
  match skipSpace s.data with
  | [] => Except.error jsonEnd
  | '[' :: rest =>
    match skipSpace rest with
    | ']' :: rest =>
      match skipSpace rest with
      | [] => Except.ok []
      | c :: _ => Except.error (jsonInvalid c "after top-level value")
    | _ => jsonElements s.length rest []
  | c :: _ => Except.error (jsonInvalid c "looking for beginning of value")

/-- Sample `strings.ToLower`: the ASCII letters. -/
def sampleToLower (s : String) : String := String.mk (s.data.map Char.toLower)

/-- The sample library. -/
def sampleLib : GoLib where
  FormatFloat := sampleFormatFloat
  ParseFloat := sampleParseFloat
  Unmarshal := sampleUnmarshal
  ToLower := sampleToLower
  ParseFloat_nil := ⟨_, rfl⟩

/-- The `Err` field after a visit that last recorded `W` (`none`: recorded nothing)
when the field held `E` before. -/
def lastErr (W E : Option GoError) : Option GoError :=
  match W with
  | some e => some e
  | none => E

/-- The record holds no nil value. -/
def NoNilValues (data : Record) : Prop := ∀ k, data.lookup k ≠ some Value.nil

/-- The error `VisitConditionKey` records for a field missing from the record. -/
def notFoundErr (key : ConditionKeyContext) : GoError :=
  Wrap ErrNotFoundCol ("column:" ++ toString key.column ++ ", '" ++ key.COL ++ "' isn't exist")

/-- The call returned an error: `(b, err)` with `err != nil`. -/
def ReturnsError (r : Option (Bool × Option GoError)) : Prop :=
  ∃ b err, r = some (b, some err)

/-- The value returned by visiting `e` from a fresh visitor, as `Validate` does
(`none`: the visit panics). -/
def visitValue (lib : GoLib) (e : ExprContext) (data : Record) : Option Value :=
  (Visit lib e ⟨data, none⟩).map Prod.fst

/-- The boolean `VisitAndOr` computes from two boolean operands: the `switch` on
the lowercased operator token. -/
def andOrBool (lib : GoLib) (opTok : String) (b0 b1 : Bool) : Bool :=
  if lib.ToLower opTok = "and" then b0 && b1
  else if lib.ToLower opTok = "or" then b0 || b1
  else false

/-! ## Construction -/

/-- The generated lexer and parser run on a source text with the error listener
`conError` attached: the tree returned by `parser.Expr()` and the listener's
`Errors`, in the order they were reported.  Their code is outside the repository. -/
abbrev Parser := String → ExprContext × List GoError

/-- Source: `New`. -/
def New (parser : Parser) (conditionExpr : String) : Option Condition × Option GoError :=
  let (tree, Errors) := parser conditionExpr
  let err : Option GoError := Errors.foldl (fun err v =>
    match err with
    | none => some v
    | some e => some (Wrap e v.Error)) none
  match err with
  | some e => (none, some e)
  | none => (some { tree := tree }, none)

/-- The normalisation of the membership operator token in the words of the
specification: lowercase, then remove every whitespace character.  The code's
normalisation is `lib.ToLower (ReplaceAllSpaces op)`. -/
def specNormalizeOp (lib : GoLib) (op : String) : String :=
  String.mk ((lib.ToLower op).data.filter (fun c => !c.isWhitespace))

/-! ## The float64 comparisons agree with the denoted numbers -/

theorem Float64.scaledMag_strictMono (x y : Float64)
    (h : x.exponent.val * 4503599627370496 + x.mantissa.val <
      y.exponent.val * 4503599627370496 + y.mantissa.val) :
    x.scaledMag < y.scaledMag := by
  have hx := x.mantissa.isLt
  have hy := y.mantissa.isLt
  rcases Nat.lt_trichotomy x.exponent.val y.exponent.val with he | he | he
  · have hy0 : y.exponent.val ≠ 0 := by omega
    have hpow : 2 ^ (y.exponent.val - 1) ≥ 1 := Nat.one_le_two_pow
    have hylow : 4503599627370496 * 2 ^ (y.exponent.val - 1) ≤ y.scaledMag := by
      simp only [Float64.scaledMag, hy0, if_false]
      exact Nat.mul_le_mul_right _ (by omega)
    by_cases hx0 : x.exponent.val = 0
    · have : x.scaledMag = x.mantissa.val := by simp [Float64.scaledMag, hx0]
      nlinarith
    · have hxup : x.scaledMag < 4503599627370496 * 2 ^ x.exponent.val := by
        simp only [Float64.scaledMag, hx0, if_false]
        have h2 : 2 ^ x.exponent.val = 2 * 2 ^ (x.exponent.val - 1) := by
          rw [← pow_succ']
          congr 1
          omega
        have hp : 2 ^ (x.exponent.val - 1) ≥ 1 := Nat.one_le_two_pow
        rw [h2]
        nlinarith
      have hmono : 2 ^ x.exponent.val ≤ 2 ^ (y.exponent.val - 1) :=
        Nat.pow_le_pow_right (by decide) (by omega)
      have := Nat.mul_le_mul_left 4503599627370496 hmono
      omega
  · have hm : x.mantissa.val < y.mantissa.val := by
      rw [he] at h
      omega
    by_cases hx0 : x.exponent.val = 0
    · have hy0 : y.exponent.val = 0 := by omega
      simpa [Float64.scaledMag, hx0, hy0] using hm
    · have hy0 : y.exponent.val ≠ 0 := by omega
      simp only [Float64.scaledMag, hx0, hy0, if_false, he]
      exact Nat.mul_lt_mul_of_pos_right (by omega) (Nat.two_pow_pos _)
  · exfalso
    have : (y.exponent.val + 1) * 4503599627370496 ≤ x.exponent.val * 4503599627370496 :=
      Nat.mul_le_mul_right _ he
    omega

theorem Float64.scaledMag_lt_iff (x y : Float64) :
    x.scaledMag < y.scaledMag ↔
      x.exponent.val * 4503599627370496 + x.mantissa.val <
        y.exponent.val * 4503599627370496 + y.mantissa.val := by
  constructor
  · intro h
    by_contra hcon
    rcases Nat.lt_or_eq_of_le (Nat.le_of_not_lt hcon) with hlt | heq
    · exact absurd (Float64.scaledMag_strictMono y x hlt) (by omega)
    · have hx := x.mantissa.isLt
      have hy := y.mantissa.isLt
      have he : x.exponent.val = y.exponent.val := by omega
      have hm : x.mantissa.val = y.mantissa.val := by omega
      simp [Float64.scaledMag, he, hm] at h
  · exact Float64.scaledMag_strictMono x y

/-- The integer key used by the comparisons orders float64 values exactly as the
numbers they denote. -/
theorem Float64.key_lt_iff (x y : Float64) : x.key < y.key ↔ x.scaled < y.scaled := by
  have h1 := Float64.scaledMag_lt_iff x y
  have h2 := Float64.scaledMag_lt_iff y x
  have hz : ∀ z : Float64, (0 < z.scaledMag ↔
      0 < z.exponent.val * 4503599627370496 + z.mantissa.val) := by
    intro z
    have := Float64.scaledMag_lt_iff ⟨false, 0, 0⟩ z
    simpa [Float64.scaledMag] using this
  have hzx := hz x
  have hzy := hz y
  simp only [Float64.key, Float64.scaled]
  generalize x.scaledMag = sx at *
  generalize y.scaledMag = sy at *
  generalize x.exponent.val * 4503599627370496 + x.mantissa.val = kx at *
  generalize y.exponent.val * 4503599627370496 + y.mantissa.val = ky at *
  cases x.sign <;> cases y.sign <;> simp <;> omega

/-- For values that are not NaN, `<`, `<=` and `==` are the order and equality of
the denoted numbers (the two zeros denote the same number). -/
theorem Float64.compare_by_value (x y : Float64) (hx : x.isNaN = false) (hy : y.isNaN = false) :
    (x.lt y = true ↔ x.scaled < y.scaled) ∧
    (x.le y = true ↔ x.scaled ≤ y.scaled) ∧
    (x.eq y = true ↔ x.scaled = y.scaled) := by
  have h1 := Float64.key_lt_iff x y
  have h2 := Float64.key_lt_iff y x
  refine ⟨?_, ?_, ?_⟩
  · simp [Float64.lt, hx, hy, h1]
  · simp only [Float64.le, hx, hy, Bool.not_false, Bool.true_and, decide_eq_true_eq]
    omega
  · simp only [Float64.eq, hx, hy, Bool.not_false, Bool.true_and, decide_eq_true_eq]
    omega

/-- A comparison with NaN is false, except `!=`, which is true. -/
theorem Float64.compare_nan (x y : Float64) (h : x.isNaN = true ∨ y.isNaN = true) :
    x.lt y = false ∧ x.le y = false ∧ x.gt y = false ∧ x.ge y = false ∧
    x.eq y = false ∧ x.ne y = true := by
  rcases h with h | h <;> simp [Float64.lt, Float64.le, Float64.gt, Float64.ge, Float64.eq, Float64.ne, h]

/-! ## Frame lemmas: what a visit returns and what it writes to `Err` -/

theorem lastErr_assoc (A B C : Option GoError) :
    lastErr A (lastErr B C) = lastErr (lastErr A B) C := by
  cases A <;> rfl

theorem lastErr_none_right (W : Option GoError) : lastErr W none = W := by
  cases W <;> rfl

theorem VisitConditionKey_absent (d : Record) (E : Option GoError) (key : ConditionKeyContext)
    (h : List.lookup key.COL d = none) :
    VisitConditionKey ⟨d, E⟩ key = (Value.nil, ⟨d, some (notFoundErr key)⟩) := by
  simp [VisitConditionKey, h, notFoundErr]

theorem VisitConditionKey_present (d : Record) (E : Option GoError) (key : ConditionKeyContext)
    (v : Value) (h : List.lookup key.COL d = some v) :
    VisitConditionKey ⟨d, E⟩ key = (v, ⟨d, E⟩) := by
  simp [VisitConditionKey, h]

theorem VisitGetNumExpr_frame (lib : GoLib) (d : Record) (key : ConditionKeyContext)
    (op number : String) :
    ∃ v W, (v = Value.nil ∨ ∃ b, v = Value.bool b) ∧
      (NoNilValues d → v = Value.nil → W ≠ none) ∧
      ∀ E, VisitGetNumExpr lib ⟨d, E⟩ key op number = (v, ⟨d, lastErr W E⟩) := by
  cases hl : List.lookup key.COL d with
  | none =>
    exact ⟨Value.nil, some (notFoundErr key), Or.inl rfl, by simp,
      fun E => by simp [VisitGetNumExpr, VisitConditionKey_absent d E key hl, lastErr]⟩
  | some v =>
    by_cases hv : v = Value.nil
    · subst hv
      exact ⟨Value.nil, none, Or.inl rfl, fun hn _ => absurd hl (hn _),
        fun E => by simp [VisitGetNumExpr, VisitConditionKey_present d E key _ hl, lastErr]⟩
    · cases hx : lib.ParseFloat (Sprint lib v) with
      | error err =>
        exact ⟨Value.bool false, some (Wrap ErrParseData (key.GetText ++ " " ++ err.Error)),
          Or.inr ⟨_, rfl⟩, by simp,
          fun E => by simp [VisitGetNumExpr, VisitConditionKey_present d E key _ hl, hv, hx, lastErr]⟩
      | ok x =>
        cases hy : lib.ParseFloat (Trim number "\"") with
        | error err =>
          exact ⟨Value.bool false, some (Wrap ErrParseData (key.GetText ++ " " ++ err.Error)),
            Or.inr ⟨_, rfl⟩, by simp,
            fun E => by
              simp [VisitGetNumExpr, VisitConditionKey_present d E key _ hl, hv, hx, hy, lastErr]⟩
        | ok y =>
          refine ⟨(VisitGetNumExpr lib ⟨d, none⟩ key op number).1, none, ?_, ?_, fun E => ?_⟩ <;>
            simp only [VisitGetNumExpr, VisitConditionKey_present d _ key _ hl, hv, hx, hy,
              if_false, lastErr] <;>
            split_ifs <;> first | exact Or.inr ⟨_, rfl⟩ | simp

theorem VisitGetStringExpr_frame (lib : GoLib) (d : Record) (key : ConditionKeyContext)
    (op string : String) :
    ∃ v W, (v = Value.nil ∨ ∃ b, v = Value.bool b) ∧
      (NoNilValues d → v = Value.nil → W ≠ none) ∧
      ∀ E, VisitGetStringExpr lib ⟨d, E⟩ key op string = (v, ⟨d, lastErr W E⟩) := by
  cases hl : List.lookup key.COL d with
  | none =>
    exact ⟨Value.nil, some (notFoundErr key), Or.inl rfl, by simp,
      fun E => by simp [VisitGetStringExpr, VisitConditionKey_absent d E key hl, lastErr]⟩
  | some v =>
    by_cases hv : v = Value.nil
    · subst hv
      exact ⟨Value.nil, none, Or.inl rfl, fun hn _ => absurd hl (hn _),
        fun E => by simp [VisitGetStringExpr, VisitConditionKey_present d E key _ hl, lastErr]⟩
    · refine ⟨(VisitGetStringExpr lib ⟨d, none⟩ key op string).1, none, ?_, ?_, fun E => ?_⟩ <;>
        simp only [VisitGetStringExpr, VisitConditionKey_present d _ key _ hl, hv,
          if_false, lastErr] <;>
        split_ifs <;> first | exact Or.inr ⟨_, rfl⟩ | simp

theorem VisitGetArrayExpr_frame (lib : GoLib) (d : Record) (key : ConditionKeyContext)
    (op array : String) :
    ∃ v W, (v = Value.nil ∨ ∃ b, v = Value.bool b) ∧
      (NoNilValues d → v = Value.nil → W ≠ none) ∧
      ∀ E, VisitGetArrayExpr lib ⟨d, E⟩ key op array = (v, ⟨d, lastErr W E⟩) := by
  cases hl : List.lookup key.COL d with
  | none =>
    exact ⟨Value.bool false, some (notFoundErr key), Or.inr ⟨_, rfl⟩, by simp,
      fun E => by simp [VisitGetArrayExpr, VisitConditionKey_absent d E key hl, lastErr]⟩
  | some v =>
    by_cases hv : v = Value.nil
    · subst hv
      exact ⟨Value.bool false, none, Or.inr ⟨_, rfl⟩, by simp,
        fun E => by simp [VisitGetArrayExpr, VisitConditionKey_present d E key _ hl, lastErr]⟩
    · cases hx : lib.Unmarshal array with
      | error err =>
        exact ⟨Value.bool false, some (Wrap ErrParseData (key.GetText ++ " " ++ err.Error)),
          Or.inr ⟨_, rfl⟩, by simp,
          fun E => by
            simp [VisitGetArrayExpr, VisitConditionKey_present d E key _ hl, hv, hx, lastErr]⟩
      | ok elems =>
        refine ⟨(VisitGetArrayExpr lib ⟨d, none⟩ key op array).1, none, ?_, ?_, fun E => ?_⟩ <;>
          simp only [VisitGetArrayExpr, VisitConditionKey_present d _ key _ hl, hv, hx,
            if_false, lastErr] <;>
          split_ifs <;> first | exact Or.inr ⟨_, rfl⟩ | simp

/-- Every visit returns (no panic), returns nil or a boolean, leaves `data`
unchanged, and its result and the error it records do not depend on the `Err`
field it starts from; on a record without nil values a nil result comes with a
recorded error. -/
theorem Visit_frame (lib : GoLib) (d : Record) (e : ExprContext) :
    ∃ v W, (v = Value.nil ∨ ∃ b, v = Value.bool b) ∧
      (NoNilValues d → v = Value.nil → W ≠ none) ∧
      ∀ E, Visit lib e ⟨d, E⟩ = some (v, ⟨d, lastErr W E⟩) := by
  induction e with
  | GetNumExpr key op number =>
    obtain ⟨v, W, hs, hn, h⟩ := VisitGetNumExpr_frame lib d key op number
    exact ⟨v, W, hs, hn, fun E => by simp [Visit, h]⟩
  | GetStringExpr key op string =>
    obtain ⟨v, W, hs, hn, h⟩ := VisitGetStringExpr_frame lib d key op string
    exact ⟨v, W, hs, hn, fun E => by simp [Visit, h]⟩
  | GetArrayExpr key op array =>
    obtain ⟨v, W, hs, hn, h⟩ := VisitGetArrayExpr_frame lib d key op array
    exact ⟨v, W, hs, hn, fun E => by simp [Visit, h]⟩
  | Parent expr ih =>
    obtain ⟨v, W, hs, hn, h⟩ := ih
    exact ⟨v, W, hs, hn, fun E => by simp [Visit, h]⟩
  | AndOr e0 opTok e1 ih0 ih1 =>
    obtain ⟨v0, W0, hs0, hn0, h0⟩ := ih0
    obtain ⟨v1, W1, hs1, hn1, h1⟩ := ih1
    rcases hs0 with rfl | ⟨b0, rfl⟩
    · exact ⟨Value.nil, some (GoError.errorString ("err," ++ e0.GetText)), Or.inl rfl, by simp,
        fun E => by simp [Visit, h0, h1, lastErr]⟩
    · rcases hs1 with rfl | ⟨b1, rfl⟩
      · exact ⟨Value.nil, some (GoError.errorString ("err," ++ e1.GetText)), Or.inl rfl, by simp,
          fun E => by simp [Visit, h0, h1, lastErr]⟩
      · by_cases hand : lib.ToLower opTok = "and"
        · refine ⟨Value.bool (b0 && b1), lastErr W1 W0, Or.inr ⟨_, rfl⟩, by simp, fun E => ?_⟩
          cases b0 <;> simp [Visit, h0, h1, hand, assertBool, lastErr_assoc]
        · by_cases hor : lib.ToLower opTok = "or"
          · refine ⟨Value.bool (b0 || b1), lastErr W1 W0, Or.inr ⟨_, rfl⟩, by simp, fun E => ?_⟩
            cases b0 <;> simp [Visit, h0, h1, hand, hor, assertBool, lastErr_assoc]
          · exact ⟨Value.bool false, lastErr W1 W0, Or.inr ⟨_, rfl⟩, by simp,
              fun E => by simp [Visit, h0, h1, hand, hor, lastErr_assoc]⟩

/-- The result of `Validate` in terms of what the root visit returns and records. -/
theorem Validate_of_frame (lib : GoLib) (d : Record) (e : ExprContext) (v : Value)
    (W : Option GoError) (h : ∀ E, Visit lib e ⟨d, E⟩ = some (v, ⟨d, lastErr W E⟩)) :
    Validate lib ⟨e⟩ d =
      match W with
      | some err => some (false, some err)
      | none => (assertBool v).map (fun b => (b, none)) := by
  cases W <;> simp [Validate, h, lastErr]

/-- An operand that validates to `(b, nil)` is visited to `b` and records nothing,
whatever `Err` holds before. -/
theorem Visit_of_Validate_ok (lib : GoLib) (d : Record) (e : ExprContext) (b : Bool)
    (h : Validate lib ⟨e⟩ d = some (b, none)) (E : Option GoError) :
    Visit lib e ⟨d, E⟩ = some (Value.bool b, ⟨d, E⟩) := by
  obtain ⟨v, W, hs, -, hv⟩ := Visit_frame lib d e
  rw [Validate_of_frame lib d e v W hv] at h
  cases W with
  | some err => simp at h
  | none =>
    rcases hs with rfl | ⟨b1, rfl⟩
    · simp [assertBool] at h
    · simp [assertBool] at h
      subst h
      simpa [lastErr] using hv E

/-- An operand that validates to an error records that error; the visit's value is
nil or a boolean. -/
theorem Visit_of_Validate_err (lib : GoLib) (d : Record) (e : ExprContext) (b : Bool)
    (err : GoError) (h : Validate lib ⟨e⟩ d = some (b, some err)) :
    ∃ v, (v = Value.nil ∨ ∃ b1, v = Value.bool b1) ∧
      ∀ E, Visit lib e ⟨d, E⟩ = some (v, ⟨d, some err⟩) := by
  obtain ⟨v, W, hs, -, hv⟩ := Visit_frame lib d e
  rw [Validate_of_frame lib d e v W hv] at h
  cases W with
  | none => cases hs with
    | inl h0 => subst h0; simp [assertBool] at h
    | inr h0 => obtain ⟨b1, rfl⟩ := h0; simp [assertBool] at h
  | some err1 =>
    simp at h
    obtain ⟨-, rfl⟩ := h
    exact ⟨v, hs, fun E => by simpa [lastErr] using hv E⟩

/-! ## C1: array membership on a missing field -/

/-- C1, refuted as stated: `tags in ["a","b"]` on the empty record returns false
together with a non-nil error, the field-not-found error recorded by
`VisitConditionKey`. -/
theorem array_absent_key_has_error :
    List.lookup "tags" ([] : Record) = none ∧
    Validate sampleLib ⟨.GetArrayExpr ⟨"tags", 0⟩ "in" "[\"a\",\"b\"]"⟩ [] =
      some (false, some (Wrap ErrNotFoundCol "column:0, 'tags' isn't exist")) ∧
    Validate sampleLib ⟨.GetArrayExpr ⟨"tags", 0⟩ "in" "[\"a\",\"b\"]"⟩ [] ≠
      some (false, none) := by
  decide

/-- C1 (amended): for every array-membership expression, whatever its operator
token and array literal, evaluated as the root expression against a record that
does not contain the referenced field, `Validate` returns false together with the
field-not-found error: its cause is `ErrNotFoundCol` and its message carries the
column and the field name. -/
theorem array_absent_key_not_found (lib : GoLib) (data : Record) (key : ConditionKeyContext)
    (op array : String) (h : List.lookup key.COL data = none) :
    Validate lib ⟨.GetArrayExpr key op array⟩ data = some (false, some (notFoundErr key)) ∧
    (notFoundErr key).Cause = ErrNotFoundCol ∧
    (notFoundErr key).Error =
      "column:" ++ toString key.column ++ ", '" ++ key.COL ++ "' isn't exist" ++ ": not field" := by
  refine ⟨?_, rfl, ?_⟩
  · simp [Validate, Visit, VisitGetArrayExpr, VisitConditionKey_absent data none key h]
  · simp [notFoundErr, Wrap, ErrNotFoundCol, GoError.Error, String.append_assoc]

/-- Witness of `array_absent_key_not_found`: `tags not in ["a"]` on a record with
only the field `name`. -/
theorem array_absent_key_not_found_witness :
    List.lookup "tags" [("name", Value.str "bob")] = none ∧
    Validate sampleLib ⟨.GetArrayExpr ⟨"tags", 0⟩ "not in" "[\"a\"]"⟩
        [("name", Value.str "bob")] =
      some (false, some (notFoundErr ⟨"tags", 0⟩)) :=
  ⟨by decide,
    (array_absent_key_not_found sampleLib [("name", Value.str "bob")] ⟨"tags", 0⟩
      "not in" "[\"a\"]" (by decide)).1⟩

/-! ## C2: a logical expression with an operand on a missing field -/

/-- C2, refuted as stated: `a > 1 or b > 1` on a record with `a = 0` and no `b`.
The left operand alone gives `(false, nil)`; the logical expression returns the
error built by `fmt.Errorf("err,%s", ...)` in `VisitAndOr`, whose cause is not
`ErrNotFoundCol`. -/
theorem andor_absent_operand_not_ErrNotFoundCol :
    List.lookup "b" [("a", Value.int 0)] = none ∧
    Validate sampleLib ⟨.GetNumExpr ⟨"a", 0⟩ ">" "1"⟩ [("a", Value.int 0)] = some (false, none) ∧
    Validate sampleLib
        ⟨.AndOr (.GetNumExpr ⟨"a", 0⟩ ">" "1") "or" (.GetNumExpr ⟨"b", 9⟩ ">" "1")⟩
        [("a", Value.int 0)] =
      some (false, some (GoError.errorString "err,b>1")) ∧
    (GoError.errorString "err,b>1").Cause ≠ ErrNotFoundCol := by
  decide

/-- C2 (amended): for every logical expression in which one operand is a numeric
or string comparison on a field absent from the record and the other operand
evaluates without error, `Validate` returns false together with the error that
`VisitAndOr` builds from the failing operand's source text, `err,` followed by the
field name, the operator and the literal; this error replaces the field-not-found
error and its cause is not `ErrNotFoundCol`. -/
theorem andor_absent_operand_error (lib : GoLib) (data : Record) (key : ConditionKeyContext)
    (op lit opTok : String) (other : ExprContext) (b : Bool)
    (habs : List.lookup key.COL data = none)
    (hother : Validate lib ⟨other⟩ data = some (b, none)) :
    ∀ cmp, cmp = ExprContext.GetNumExpr key op lit ∨ cmp = ExprContext.GetStringExpr key op lit →
      Validate lib ⟨.AndOr cmp opTok other⟩ data =
        some (false, some (GoError.errorString ("err," ++ (key.COL ++ op ++ lit)))) ∧
      Validate lib ⟨.AndOr other opTok cmp⟩ data =
        some (false, some (GoError.errorString ("err," ++ (key.COL ++ op ++ lit)))) ∧
      (GoError.errorString ("err," ++ (key.COL ++ op ++ lit))).Cause ≠ ErrNotFoundCol := by
  have ho := Visit_of_Validate_ok lib data other b hother
  intro cmp hcmp
  refine ⟨?_, ?_, by simp [GoError.Cause, ErrNotFoundCol]⟩ <;>
    rcases hcmp with rfl | rfl <;>
    simp [Validate, Visit, ho, VisitGetNumExpr, VisitGetStringExpr,
      VisitConditionKey_absent data _ key habs, ExprContext.GetText,
      ConditionKeyContext.GetText]

/-- Witness of `andor_absent_operand_error`: `name == "bob" and age > 18` on a
record with `age = 30` and no `name`. -/
theorem andor_absent_operand_error_witness :
    List.lookup "name" [("age", Value.int 30)] = none ∧
    Validate sampleLib ⟨.GetNumExpr ⟨"age", 18⟩ ">" "18"⟩ [("age", Value.int 30)] =
      some (true, none) ∧
    Validate sampleLib
        ⟨.AndOr (.GetStringExpr ⟨"name", 0⟩ "==" "\"bob\"") "and" (.GetNumExpr ⟨"age", 18⟩ ">" "18")⟩
        [("age", Value.int 30)] =
      some (false, some (GoError.errorString "err,name==\"bob\"")) :=
  ⟨by decide, by decide,
    (andor_absent_operand_error sampleLib [("age", Value.int 30)] ⟨"name", 0⟩ "==" "\"bob\""
      "and" (.GetNumExpr ⟨"age", 18⟩ ">" "18") true (by decide) (by decide)
      (.GetStringExpr ⟨"name", 0⟩ "==" "\"bob\"") (Or.inr rfl)).1⟩

/-! ## Logical expressions -/

theorem Validate_AndOr_left_nil (lib : GoLib) (d : Record) (e0 e1 : ExprContext) (opTok : String)
    (W0 : Option GoError) (v1 : Value) (W1 : Option GoError)
    (h0 : ∀ E, Visit lib e0 ⟨d, E⟩ = some (Value.nil, ⟨d, lastErr W0 E⟩))
    (h1 : ∀ E, Visit lib e1 ⟨d, E⟩ = some (v1, ⟨d, lastErr W1 E⟩)) :
    Validate lib ⟨.AndOr e0 opTok e1⟩ d =
      some (false, some (GoError.errorString ("err," ++ e0.GetText))) := by
  simp [Validate, Visit, h0, h1]

theorem Validate_AndOr_right_nil (lib : GoLib) (d : Record) (e0 e1 : ExprContext)
    (opTok : String) (b0 : Bool) (W0 W1 : Option GoError)
    (h0 : ∀ E, Visit lib e0 ⟨d, E⟩ = some (Value.bool b0, ⟨d, lastErr W0 E⟩))
    (h1 : ∀ E, Visit lib e1 ⟨d, E⟩ = some (Value.nil, ⟨d, lastErr W1 E⟩)) :
    Validate lib ⟨.AndOr e0 opTok e1⟩ d =
      some (false, some (GoError.errorString ("err," ++ e1.GetText))) := by
  simp [Validate, Visit, h0, h1]

theorem Validate_AndOr_bools (lib : GoLib) (d : Record) (e0 e1 : ExprContext)
    (opTok : String) (b0 b1 : Bool) (W0 W1 : Option GoError)
    (h0 : ∀ E, Visit lib e0 ⟨d, E⟩ = some (Value.bool b0, ⟨d, lastErr W0 E⟩))
    (h1 : ∀ E, Visit lib e1 ⟨d, E⟩ = some (Value.bool b1, ⟨d, lastErr W1 E⟩)) :
    Validate lib ⟨.AndOr e0 opTok e1⟩ d =
      match lastErr W1 W0 with
      | some err => some (false, some err)
      | none => some (andOrBool lib opTok b0 b1, none) := by
  have hE : lastErr W1 (lastErr W0 none) = lastErr W1 W0 := by
    rw [lastErr_none_right]
  by_cases hand : lib.ToLower opTok = "and"
  · cases b0 <;> cases hW : lastErr W1 W0 <;>
      simp [Validate, Visit, h0, h1, hand, assertBool, andOrBool, hE, hW]
  · by_cases hor : lib.ToLower opTok = "or"
    · cases b0 <;> cases hW : lastErr W1 W0 <;>
        simp [Validate, Visit, h0, h1, hand, hor, assertBool, andOrBool, hE, hW]
    · cases hW : lastErr W1 W0 <;>
        simp [Validate, Visit, h0, h1, hand, hor, assertBool, andOrBool, hE, hW]

/-! ## C3: which error a logical expression returns when both operands fail -/

/-- C3, refuted as stated: `a > 1 and b > 1` on the record `a = "x"`, `b = "y"`.
Each operand fails on its own with a parse error naming its field; the logical
expression returns the error of the right operand, not the left one. -/
theorem andor_both_fail_right_error_wins :
    Validate sampleLib ⟨.GetNumExpr ⟨"a", 0⟩ ">" "1"⟩ [("a", Value.str "x"), ("b", Value.str "y")] =
      some (false, some (Wrap ErrParseData "a strconv.ParseFloat: parsing \"x\": invalid syntax")) ∧
    Validate sampleLib ⟨.GetNumExpr ⟨"b", 10⟩ ">" "1"⟩ [("a", Value.str "x"), ("b", Value.str "y")] =
      some (false, some (Wrap ErrParseData "b strconv.ParseFloat: parsing \"y\": invalid syntax")) ∧
    Validate sampleLib
        ⟨.AndOr (.GetNumExpr ⟨"a", 0⟩ ">" "1") "and" (.GetNumExpr ⟨"b", 10⟩ ">" "1")⟩
        [("a", Value.str "x"), ("b", Value.str "y")] =
      some (false, some (Wrap ErrParseData "b strconv.ParseFloat: parsing \"y\": invalid syntax")) ∧
    Validate sampleLib
        ⟨.AndOr (.GetNumExpr ⟨"a", 0⟩ ">" "1") "and" (.GetNumExpr ⟨"b", 10⟩ ">" "1")⟩
        [("a", Value.str "x"), ("b", Value.str "y")] ≠
      some (false, some (Wrap ErrParseData "a strconv.ParseFloat: parsing \"x\": invalid syntax")) := by
  decide

/-- C3 (amended): for every logical expression and every record for which both
operands fail when evaluated on their own, `Validate` returns false with an error
fixed by the checks of `VisitAndOr` in source order: when the visit of the left
operand yields nil, the error `err,` + text of the left operand; otherwise, when
the visit of the right operand yields nil, the error `err,` + text of the right
operand; otherwise (both visits yield a boolean) the error of the right operand,
which was recorded last. -/
theorem andor_both_fail_error (lib : GoLib) (data : Record) (e0 e1 : ExprContext)
    (opTok : String) (b0 b1 : Bool) (err0 err1 : GoError)
    (h0 : Validate lib ⟨e0⟩ data = some (b0, some err0))
    (h1 : Validate lib ⟨e1⟩ data = some (b1, some err1)) :
    Validate lib ⟨.AndOr e0 opTok e1⟩ data =
      some (false, some (
        if visitValue lib e0 data = some Value.nil then
          GoError.errorString ("err," ++ e0.GetText)
        else if visitValue lib e1 data = some Value.nil then
          GoError.errorString ("err," ++ e1.GetText)
        else err1)) := by
  obtain ⟨v0, hs0, hv0⟩ := Visit_of_Validate_err lib data e0 b0 err0 h0
  obtain ⟨v1, hs1, hv1⟩ := Visit_of_Validate_err lib data e1 b1 err1 h1
  have hf0 : ∀ E, Visit lib e0 ⟨data, E⟩ = some (v0, ⟨data, lastErr (some err0) E⟩) := hv0
  have hf1 : ∀ E, Visit lib e1 ⟨data, E⟩ = some (v1, ⟨data, lastErr (some err1) E⟩) := hv1
  rcases hs0 with rfl | ⟨c0, rfl⟩
  · rw [Validate_AndOr_left_nil lib data e0 e1 opTok _ v1 _ hf0 hf1]
    simp [visitValue, hv0]
  · rcases hs1 with rfl | ⟨c1, rfl⟩
    · rw [Validate_AndOr_right_nil lib data e0 e1 opTok c0 _ _ hf0 hf1]
      simp [visitValue, hv0, hv1]
    · rw [Validate_AndOr_bools lib data e0 e1 opTok c0 c1 _ _ hf0 hf1]
      simp [visitValue, hv0, hv1, lastErr]

/-- Witness of `andor_both_fail_error`: `a > 1 or tags in [1,]` on the record
`a = true`, `tags = "t"`: both visits yield a boolean, the right error is returned. -/
theorem andor_both_fail_error_witness :
    Validate sampleLib ⟨.GetNumExpr ⟨"a", 0⟩ ">" "1"⟩
        [("a", Value.bool true), ("tags", Value.str "t")] =
      some (false,
        some (Wrap ErrParseData "a strconv.ParseFloat: parsing \"true\": invalid syntax")) ∧
    Validate sampleLib ⟨.GetArrayExpr ⟨"tags", 9⟩ "in" "[1,]"⟩
        [("a", Value.bool true), ("tags", Value.str "t")] =
      some (false,
        some (Wrap ErrParseData "tags invalid character ']' looking for beginning of value")) ∧
    Validate sampleLib
        ⟨.AndOr (.GetNumExpr ⟨"a", 0⟩ ">" "1") "or" (.GetArrayExpr ⟨"tags", 9⟩ "in" "[1,]")⟩
        [("a", Value.bool true), ("tags", Value.str "t")] =
      some (false,
        some (Wrap ErrParseData "tags invalid character ']' looking for beginning of value")) :=
  ⟨by decide, by decide,
    (andor_both_fail_error sampleLib [("a", Value.bool true), ("tags", Value.str "t")]
      (.GetNumExpr ⟨"a", 0⟩ ">" "1") (.GetArrayExpr ⟨"tags", 9⟩ "in" "[1,]") "or" false false
      (Wrap ErrParseData "a strconv.ParseFloat: parsing \"true\": invalid syntax")
      (Wrap ErrParseData "tags invalid character ']' looking for beginning of value")
      (by decide) (by decide)).trans (by decide)⟩

/-! ## C4: both operands are always evaluated -/

/-- On a record without nil values, an expression validates to an error exactly
when its visit records one. -/
theorem ReturnsError_iff_recorded (lib : GoLib) (d : Record) (e : ExprContext) (v : Value)
    (W : Option GoError) (hn : v = Value.nil → W ≠ none)
    (hs : v = Value.nil ∨ ∃ b, v = Value.bool b)
    (h : ∀ E, Visit lib e ⟨d, E⟩ = some (v, ⟨d, lastErr W E⟩)) :
    ReturnsError (Validate lib ⟨e⟩ d) ↔ W ≠ none := by
  rw [Validate_of_frame lib d e v W h]
  cases W with
  | some err => simp [ReturnsError]
  | none =>
    rcases hs with rfl | ⟨b, rfl⟩
    · exact absurd rfl (hn rfl)
    · simp [ReturnsError, assertBool]

/-- C4: logical expressions never short-circuit.  For every logical expression and
every record without nil values, `Validate` returns an error if and only if at
least one of the two operands returns an error when evaluated on its own against
the same record. -/
theorem andor_error_iff (lib : GoLib) (data : Record) (e0 e1 : ExprContext) (opTok : String)
    (hnil : NoNilValues data) :
    ReturnsError (Validate lib ⟨.AndOr e0 opTok e1⟩ data) ↔
      (ReturnsError (Validate lib ⟨e0⟩ data) ∨ ReturnsError (Validate lib ⟨e1⟩ data)) := by
  obtain ⟨v0, W0, hs0, hn0, h0⟩ := Visit_frame lib data e0
  obtain ⟨v1, W1, hs1, hn1, h1⟩ := Visit_frame lib data e1
  rw [ReturnsError_iff_recorded lib data e0 v0 W0 (hn0 hnil) hs0 h0,
    ReturnsError_iff_recorded lib data e1 v1 W1 (hn1 hnil) hs1 h1]
  rcases hs0 with rfl | ⟨b0, rfl⟩
  · rw [Validate_AndOr_left_nil lib data e0 e1 opTok W0 v1 W1 h0 h1]
    have := hn0 hnil rfl
    simp [ReturnsError, this]
  · rcases hs1 with rfl | ⟨b1, rfl⟩
    · rw [Validate_AndOr_right_nil lib data e0 e1 opTok b0 W0 W1 h0 h1]
      have := hn1 hnil rfl
      simp [ReturnsError, this]
    · rw [Validate_AndOr_bools lib data e0 e1 opTok b0 b1 W0 W1 h0 h1]
      cases W0 <;> cases W1 <;> simp [ReturnsError, lastErr]

theorem NoNilValues_of_forall (data : Record) (h : ∀ kv ∈ data, kv.2 ≠ Value.nil) :
    NoNilValues data := by
  intro k
  induction data with
  | nil => simp [List.lookup]
  | cons kv rest ih =>
    obtain ⟨k1, v1⟩ := kv
    have hrest : ∀ kv ∈ rest, kv.2 ≠ Value.nil := fun kv hkv => h kv (List.mem_cons_of_mem _ hkv)
    have hv1 : v1 ≠ Value.nil := h (k1, v1) (List.mem_cons_self _ _)
    simp only [List.lookup]
    split
    · simpa using hv1
    · exact ih hrest

/-- Witness of `andor_error_iff`: in `a > 1 or b > 1` on the record `a = 5` the
left operand is true and the right operand fails, and the expression fails. -/
theorem andor_error_iff_witness :
    NoNilValues [("a", Value.int 5)] ∧
    Validate sampleLib ⟨.GetNumExpr ⟨"a", 0⟩ ">" "1"⟩ [("a", Value.int 5)] = some (true, none) ∧
    ReturnsError (Validate sampleLib
      ⟨.AndOr (.GetNumExpr ⟨"a", 0⟩ ">" "1") "or" (.GetNumExpr ⟨"b", 9⟩ ">" "1")⟩
      [("a", Value.int 5)]) :=
  ⟨NoNilValues_of_forall _ (by decide), by decide,
    (andor_error_iff sampleLib [("a", Value.int 5)] (.GetNumExpr ⟨"a", 0⟩ ">" "1")
      (.GetNumExpr ⟨"b", 9⟩ ">" "1") "or" (NoNilValues_of_forall _ (by decide))).mpr
      (Or.inr ⟨false, notFoundErr ⟨"b", 9⟩, by decide⟩)⟩

/-! ## C5: the boolean of a logical expression -/

/-- C5: for every logical expression whose two operands evaluate on their own
without error to booleans `b0` and `b1`, `Validate` returns no error and returns
`b0 && b1` when the operator token lowercases to `and`, and `b0 || b1` when it
lowercases to `or`. -/
theorem andor_bool_result (lib : GoLib) (data : Record) (e0 e1 : ExprContext) (opTok : String)
    (b0 b1 : Bool)
    (h0 : Validate lib ⟨e0⟩ data = some (b0, none))
    (h1 : Validate lib ⟨e1⟩ data = some (b1, none)) :
    (lib.ToLower opTok = "and" →
      Validate lib ⟨.AndOr e0 opTok e1⟩ data = some (b0 && b1, none)) ∧
    (lib.ToLower opTok = "or" →
      Validate lib ⟨.AndOr e0 opTok e1⟩ data = some (b0 || b1, none)) := by
  have hf0 : ∀ E, Visit lib e0 ⟨data, E⟩ = some (Value.bool b0, ⟨data, lastErr none E⟩) :=
    Visit_of_Validate_ok lib data e0 b0 h0
  have hf1 : ∀ E, Visit lib e1 ⟨data, E⟩ = some (Value.bool b1, ⟨data, lastErr none E⟩) :=
    Visit_of_Validate_ok lib data e1 b1 h1
  rw [Validate_AndOr_bools lib data e0 e1 opTok b0 b1 none none hf0 hf1]
  constructor <;> intro h <;> simp [lastErr, andOrBool, h]

/-- Witness of `andor_bool_result`: `age > 18 AND age < 10` on `age = 30` is false. -/
theorem andor_bool_result_witness :
    Validate sampleLib ⟨.GetNumExpr ⟨"age", 0⟩ ">" "18"⟩ [("age", Value.int 30)] =
      some (true, none) ∧
    Validate sampleLib ⟨.GetNumExpr ⟨"age", 13⟩ "<" "10"⟩ [("age", Value.int 30)] =
      some (false, none) ∧
    sampleLib.ToLower "AND" = "and" ∧
    Validate sampleLib
        ⟨.AndOr (.GetNumExpr ⟨"age", 0⟩ ">" "18") "AND" (.GetNumExpr ⟨"age", 13⟩ "<" "10")⟩
        [("age", Value.int 30)] =
      some (false, none) :=
  ⟨by decide, by decide, by decide,
    (andor_bool_result sampleLib [("age", Value.int 30)] (.GetNumExpr ⟨"age", 0⟩ ">" "18")
      (.GetNumExpr ⟨"age", 13⟩ "<" "10") "AND" true false (by decide) (by decide)).1
      (by decide)⟩

/-! ## C6: a numeric or string comparison on a missing field -/

/-- C6: for every numeric comparison or string comparison used as the root
expression and every record that does not contain the referenced field,
`Validate` returns `(false, err)` where `err` has cause `ErrNotFoundCol` and its
message carries the source column of the field reference and the field name. -/
theorem comparison_absent_key_not_found (lib : GoLib) (data : Record)
    (key : ConditionKeyContext) (op lit : String) (h : List.lookup key.COL data = none) :
    Validate lib ⟨.GetNumExpr key op lit⟩ data = some (false, some (notFoundErr key)) ∧
    Validate lib ⟨.GetStringExpr key op lit⟩ data = some (false, some (notFoundErr key)) ∧
    (notFoundErr key).Cause = ErrNotFoundCol ∧
    (notFoundErr key).Error =
      "column:" ++ toString key.column ++ ", '" ++ key.COL ++ "' isn't exist" ++ ": not field" := by
  refine ⟨?_, ?_, rfl, ?_⟩
  · simp [Validate, Visit, VisitGetNumExpr, VisitConditionKey_absent data none key h]
  · simp [Validate, Visit, VisitGetStringExpr, VisitConditionKey_absent data none key h]
  · simp [notFoundErr, Wrap, ErrNotFoundCol, GoError.Error, String.append_assoc]

/-- Witness of `comparison_absent_key_not_found`: `name == "bob"` on the empty record. -/
theorem comparison_absent_key_not_found_witness :
    List.lookup "name" ([] : Record) = none ∧
    Validate sampleLib ⟨.GetStringExpr ⟨"name", 0⟩ "==" "\"bob\""⟩ [] =
      some (false, some (notFoundErr ⟨"name", 0⟩)) ∧
    (notFoundErr ⟨"name", 0⟩).Error = "column:0, 'name' isn't exist: not field" :=
  ⟨by decide,
    (comparison_absent_key_not_found sampleLib [] ⟨"name", 0⟩ "==" "\"bob\"" (by decide)).2.1,
    by decide⟩

/-! ## C7: numeric comparison of parsed numbers -/

/-- C7: for every root numeric comparison `key op literal` and every record in
which `key` is present, the canonical text of its value parses to the number `x`
and the literal (stripped of quote characters, as the code does) parses to the
number `y`, `Validate` returns no error and the boolean of the float64 comparison
`x op y`, for each `op` among `>`, `<`, `==`, `!=`, `>=`, `<=`. -/
theorem num_compare_parsed (lib : GoLib) (data : Record) (key : ConditionKeyContext)
    (number : String) (v : Value) (x y : Float64)
    (hv : List.lookup key.COL data = some v)
    (hx : lib.ParseFloat (Sprint lib v) = Except.ok x)
    (hy : lib.ParseFloat (Trim number "\"") = Except.ok y) :
    Validate lib ⟨.GetNumExpr key ">" number⟩ data = some (Float64.gt x y, none) ∧
    Validate lib ⟨.GetNumExpr key "<" number⟩ data = some (Float64.lt x y, none) ∧
    Validate lib ⟨.GetNumExpr key "==" number⟩ data = some (Float64.eq x y, none) ∧
    Validate lib ⟨.GetNumExpr key "!=" number⟩ data = some (Float64.ne x y, none) ∧
    Validate lib ⟨.GetNumExpr key ">=" number⟩ data = some (Float64.ge x y, none) ∧
    Validate lib ⟨.GetNumExpr key "<=" number⟩ data = some (Float64.le x y, none) := by
  have hnn : v ≠ Value.nil := by
    rintro rfl
    obtain ⟨e, he⟩ := lib.ParseFloat_nil
    simp [Sprint, he] at hx
  refine ⟨?_, ?_, ?_, ?_, ?_, ?_⟩ <;>
    simp [Validate, Visit, VisitGetNumExpr, VisitConditionKey_present data none key v hv,
      hnn, hx, hy, assertBool]

/-- Witness of `num_compare_parsed`: `age > 18` on `age = 30` is true. -/
theorem num_compare_parsed_witness :
    List.lookup "age" [("age", Value.int 30)] = some (Value.int 30) ∧
    sampleLib.ParseFloat (Sprint sampleLib (Value.int 30)) =
      Except.ok ⟨false, 1027, 3940649673949184⟩ ∧
    sampleLib.ParseFloat (Trim "18" "\"") = Except.ok ⟨false, 1027, 562949953421312⟩ ∧
    Validate sampleLib ⟨.GetNumExpr ⟨"age", 0⟩ ">" "18"⟩ [("age", Value.int 30)] =
      some (true, none) :=
  ⟨by decide, rfl, rfl,
    (num_compare_parsed sampleLib [("age", Value.int 30)] ⟨"age", 0⟩ "18" (Value.int 30)
      ⟨false, 1027, 3940649673949184⟩ ⟨false, 1027, 562949953421312⟩
      (by decide) rfl rfl).1.trans (by decide)⟩

/-! ## C8: a field value that is not a number -/

/-- For every root numeric comparison and every record in which the referenced
field holds a non-nil value whose canonical text does not parse as a float64,
`Validate` returns `(false, err)` where `err` wraps `ErrParseData` and its message
starts with the field name, whatever the operator and the literal are. -/
theorem num_unparsable_value_error (lib : GoLib) (data : Record) (key : ConditionKeyContext)
    (op number : String) (v : Value) (e : GoError)
    (hv : List.lookup key.COL data = some v) (hnn : v ≠ Value.nil)
    (hx : lib.ParseFloat (Sprint lib v) = Except.error e) :
    Validate lib ⟨.GetNumExpr key op number⟩ data =
      some (false, some (Wrap ErrParseData (key.COL ++ " " ++ e.Error))) ∧
    (Wrap ErrParseData (key.COL ++ " " ++ e.Error)).Cause = ErrParseData := by
  refine ⟨?_, rfl⟩
  simp [Validate, Visit, VisitGetNumExpr, VisitConditionKey_present data none key v hv,
    hnn, hx, ConditionKeyContext.GetText]

/-- Evaluation of `num_unparsable_value_error` on `price > 10` with `price = "abc"`. -/
theorem num_unparsable_value_error_witness :
    Validate sampleLib ⟨.GetNumExpr ⟨"price", 0⟩ ">" "10"⟩ [("price", Value.str "abc")] =
      some (false, some (Wrap ErrParseData
        "price strconv.ParseFloat: parsing \"abc\": invalid syntax")) :=
  (num_unparsable_value_error sampleLib [("price", Value.str "abc")] ⟨"price", 0⟩ ">" "10"
    (Value.str "abc")
    (GoError.errorString "strconv.ParseFloat: parsing \"abc\": invalid syntax")
    (by decide) (by decide) rfl).1.trans (by decide)

/-- C8, the failing input: `price > 10` on a record in which `price` is present
with a nil value.  The canonical text `<nil>` of the value does not parse as a
float64, yet `Validate` returns no `ErrParseData` error: `VisitGetNumExpr` returns
nil without recording an error and the assertion `res.(bool)` panics. -/
theorem num_nil_value_panics :
    List.lookup "price" [("price", Value.nil)] = some Value.nil ∧
    sampleLib.ParseFloat (Sprint sampleLib Value.nil) =
      Except.error (GoError.errorString "strconv.ParseFloat: parsing \"<nil>\": invalid syntax") ∧
    Validate sampleLib ⟨.GetNumExpr ⟨"price", 0⟩ ">" "10"⟩ [("price", Value.nil)] = none :=
  ⟨by decide, rfl, by decide⟩

/-! ## C9: string comparison -/

theorem hasInfix_iff (cs sub : List Char) : hasInfix cs sub = true ↔ sub <:+: cs := by
  induction cs with
  | nil => simp [hasInfix, List.infix_nil]
  | cons c cs ih =>
    simp only [hasInfix, Bool.or_eq_true, ih, List.infix_cons_iff, List.isPrefixOf_iff_prefix]

theorem Contains_iff (s substr : String) :
    Contains s substr = true ↔ substr.data <:+: s.data :=
  hasInfix_iff _ _

/-- C9: for every root string comparison and every record in which the referenced
field is present with a non-nil value, `Validate` returns no error and, with `v`
the canonical text of the field value and `s` the literal stripped of its
surrounding double-quote characters: `=~` is true iff `s` is a substring of `v`,
`!~` is true iff `s` is not a substring of `v`, `==` is true iff `v` equals `s`,
`!=` is true iff `v` differs from `s`. -/
theorem string_compare (lib : GoLib) (data : Record) (key : ConditionKeyContext)
    (lit : String) (v : Value)
    (hv : List.lookup key.COL data = some v) (hnn : v ≠ Value.nil) :
    (∃ b, Validate lib ⟨.GetStringExpr key "=~" lit⟩ data = some (b, none) ∧
      (b = true ↔ (Trim lit "\"").data <:+: (Sprint lib v).data)) ∧
    (∃ b, Validate lib ⟨.GetStringExpr key "!~" lit⟩ data = some (b, none) ∧
      (b = true ↔ ¬ (Trim lit "\"").data <:+: (Sprint lib v).data)) ∧
    (∃ b, Validate lib ⟨.GetStringExpr key "==" lit⟩ data = some (b, none) ∧
      (b = true ↔ Sprint lib v = Trim lit "\"")) ∧
    (∃ b, Validate lib ⟨.GetStringExpr key "!=" lit⟩ data = some (b, none) ∧
      (b = true ↔ Sprint lib v ≠ Trim lit "\"")) := by
  refine ⟨⟨Contains (Sprint lib v) (Trim lit "\""), ?_, Contains_iff _ _⟩,
    ⟨!Contains (Sprint lib v) (Trim lit "\""), ?_, ?_⟩,
    ⟨decide (Sprint lib v = Trim lit "\""), ?_, by simp⟩,
    ⟨decide (Sprint lib v ≠ Trim lit "\""), ?_, by simp⟩⟩
  · simp [Validate, Visit, VisitGetStringExpr, VisitConditionKey_present data none key v hv,
      hnn, assertBool]
  · simp [Validate, Visit, VisitGetStringExpr, VisitConditionKey_present data none key v hv,
      hnn, assertBool]
  · rw [← Contains_iff]
    simp
  · simp [Validate, Visit, VisitGetStringExpr, VisitConditionKey_present data none key v hv,
      hnn, assertBool]
  · simp [Validate, Visit, VisitGetStringExpr, VisitConditionKey_present data none key v hv,
      hnn, assertBool]

/-- Witness of `string_compare`: on `name = "bobby"`, `name =~ "bob"` is true and
`name == "bob"` is false. -/
theorem string_compare_witness :
    List.lookup "name" [("name", Value.str "bobby")] = some (Value.str "bobby") ∧
    Value.str "bobby" ≠ Value.nil ∧
    Trim "\"bob\"" "\"" = "bob" ∧
    Validate sampleLib ⟨.GetStringExpr ⟨"name", 0⟩ "=~" "\"bob\""⟩
      [("name", Value.str "bobby")] = some (true, none) ∧
    ∃ b, Validate sampleLib ⟨.GetStringExpr ⟨"name", 0⟩ "==" "\"bob\""⟩
        [("name", Value.str "bobby")] = some (b, none) ∧
      (b = true ↔ Sprint sampleLib (Value.str "bobby") = Trim "\"bob\"" "\"") :=
  ⟨by decide, by decide, by decide, by decide,
    (string_compare sampleLib [("name", Value.str "bobby")] ⟨"name", 0⟩ "\"bob\""
      (Value.str "bobby") (by decide) (by decide)).2.2.1⟩

/-! ## C10: array membership -/

/-- C10, refuted as stated: `tags not in []` on a record in which `tags` is present
with a nil value.  The array literal parses to no element, so the value equals
no element, yet `Validate` returns false: `VisitGetArrayExpr` returns false for a
nil value before it looks at the array. -/
theorem array_nil_value_not_in_empty :
    List.lookup "tags" [("tags", Value.nil)] = some Value.nil ∧
    sampleLib.Unmarshal "[]" = Except.ok [] ∧
    sampleLib.ToLower (ReplaceAllSpaces "not in") = "notin" ∧
    Validate sampleLib ⟨.GetArrayExpr ⟨"tags", 0⟩ "not in" "[]"⟩ [("tags", Value.nil)] =
      some (false, none) :=
  ⟨by decide, rfl, by decide, by decide⟩

/-- C10 (amended): for every root array-membership expression and every record in
which the referenced field is present with a non-nil value and the array literal
parses to elements `e1..en`, `Validate` returns no error; `in` returns true iff
the canonical text of the field value equals the canonical text of at least one
`ei`, and `not in` returns true iff it equals the canonical text of no `ei`. -/
theorem array_membership (lib : GoLib) (data : Record) (key : ConditionKeyContext)
    (op array : String) (v : Value) (elems : List Value)
    (hv : List.lookup key.COL data = some v) (hnn : v ≠ Value.nil)
    (hp : lib.Unmarshal array = Except.ok elems) :
    (lib.ToLower (ReplaceAllSpaces op) = "in" →
      ∃ b, Validate lib ⟨.GetArrayExpr key op array⟩ data = some (b, none) ∧
        (b = true ↔ ∃ e ∈ elems, Sprint lib v = Sprint lib e)) ∧
    (lib.ToLower (ReplaceAllSpaces op) = "notin" →
      ∃ b, Validate lib ⟨.GetArrayExpr key op array⟩ data = some (b, none) ∧
        (b = true ↔ ∀ e ∈ elems, Sprint lib v ≠ Sprint lib e)) := by
  constructor
  · intro hop
    refine ⟨elems.any (fun e => decide (Sprint lib v = Sprint lib e)), ?_, by simp⟩
    simp [Validate, Visit, VisitGetArrayExpr, VisitConditionKey_present data none key v hv,
      hnn, hp, hop, assertBool]
  · intro hop
    refine ⟨!elems.any (fun e => decide (Sprint lib v = Sprint lib e)), ?_, by simp⟩
    simp [Validate, Visit, VisitGetArrayExpr, VisitConditionKey_present data none key v hv,
      hnn, hp, hop, assertBool]

/-- Witness of `array_membership`: on `tags = "a"`, `tags in ["a","b"]` is true,
and `tags not in []` is true. -/
theorem array_membership_witness :
    List.lookup "tags" [("tags", Value.str "a")] = some (Value.str "a") ∧
    sampleLib.Unmarshal "[\"a\",\"b\"]" = Except.ok [Value.str "a", Value.str "b"] ∧
    sampleLib.ToLower (ReplaceAllSpaces "in") = "in" ∧
    Validate sampleLib ⟨.GetArrayExpr ⟨"tags", 0⟩ "in" "[\"a\",\"b\"]"⟩
      [("tags", Value.str "a")] = some (true, none) ∧
    Validate sampleLib ⟨.GetArrayExpr ⟨"tags", 0⟩ "not in" "[]"⟩
      [("tags", Value.str "a")] = some (true, none) ∧
    ∃ b, Validate sampleLib ⟨.GetArrayExpr ⟨"tags", 0⟩ "in" "[\"a\",\"b\"]"⟩
        [("tags", Value.str "a")] = some (b, none) ∧
      (b = true ↔ ∃ e ∈ [Value.str "a", Value.str "b"],
        Sprint sampleLib (Value.str "a") = Sprint sampleLib e) :=
  ⟨by decide, rfl, by decide, by decide, by decide,
    (array_membership sampleLib [("tags", Value.str "a")] ⟨"tags", 0⟩ "in" "[\"a\",\"b\"]"
      (Value.str "a") [Value.str "a", Value.str "b"] (by decide) (by decide) rfl).1
      (by decide)⟩

/-! ## C11: normalisation of the membership operator token -/

theorem VisitGetArrayExpr_congr_op (lib : GoLib) (p : condition) (key : ConditionKeyContext)
    (op op2 array : String)
    (h : lib.ToLower (ReplaceAllSpaces op) = lib.ToLower (ReplaceAllSpaces op2)) :
    VisitGetArrayExpr lib p key op array = VisitGetArrayExpr lib p key op2 array := by
  simp only [VisitGetArrayExpr, h]

/-- C11, refuted as stated: the token `not<TAB>in` becomes `notin` after lowercasing
and removing every whitespace character, yet `tags not<TAB>in ["b"]` on `tags = "a"`
is false while `tags not in ["b"]` is true: the code removes space characters only. -/
theorem member_op_tab_not_stripped :
    specNormalizeOp sampleLib "not\tin" = "notin" ∧
    sampleLib.ToLower (ReplaceAllSpaces "not\tin") = "not\tin" ∧
    Validate sampleLib ⟨.GetArrayExpr ⟨"tags", 0⟩ "not\tin" "[\"b\"]"⟩
      [("tags", Value.str "a")] = some (false, none) ∧
    Validate sampleLib ⟨.GetArrayExpr ⟨"tags", 0⟩ "not in" "[\"b\"]"⟩
      [("tags", Value.str "a")] = some (true, none) := by
  decide

/-- C11 (amended): the membership operator token is normalised by removing every
space character and lowercasing.  For every operator token that becomes `in`
(respectively `notin`) this way, the array-membership expression evaluates exactly
as with the token `in` (respectively `not in`); every other token yields false. -/
theorem member_op_normalised (lib : GoLib) (data : Record) (key : ConditionKeyContext)
    (op array : String)
    (hin : lib.ToLower "in" = "in") (hnotin : lib.ToLower "notin" = "notin") :
    (lib.ToLower (ReplaceAllSpaces op) = "in" →
      Validate lib ⟨.GetArrayExpr key op array⟩ data =
        Validate lib ⟨.GetArrayExpr key "in" array⟩ data) ∧
    (lib.ToLower (ReplaceAllSpaces op) = "notin" →
      Validate lib ⟨.GetArrayExpr key op array⟩ data =
        Validate lib ⟨.GetArrayExpr key "not in" array⟩ data) ∧
    (lib.ToLower (ReplaceAllSpaces op) ≠ "in" → lib.ToLower (ReplaceAllSpaces op) ≠ "notin" →
      ∃ err, Validate lib ⟨.GetArrayExpr key op array⟩ data = some (false, err)) := by
  have h1 : ReplaceAllSpaces "in" = "in" := by decide
  have h2 : ReplaceAllSpaces "not in" = "notin" := by decide
  refine ⟨fun h => ?_, fun h => ?_, fun hn1 hn2 => ?_⟩
  · simp only [Validate, Visit]
    rw [VisitGetArrayExpr_congr_op lib _ key op "in" array (by rw [h, h1, hin])]
  · simp only [Validate, Visit]
    rw [VisitGetArrayExpr_congr_op lib _ key op "not in" array (by rw [h, h2, hnotin])]
  · cases hl : List.lookup key.COL data with
    | none =>
      exact ⟨some (notFoundErr key), by simp [Validate, Visit, VisitGetArrayExpr,
        VisitConditionKey_absent data none key hl]⟩
    | some v =>
      by_cases hv : v = Value.nil
      · subst hv
        exact ⟨none, by simp [Validate, Visit, VisitGetArrayExpr,
          VisitConditionKey_present data none key _ hl, assertBool]⟩
      · cases hx : lib.Unmarshal array with
        | error e =>
          exact ⟨some (Wrap ErrParseData (key.GetText ++ " " ++ e.Error)),
            by simp [Validate, Visit, VisitGetArrayExpr,
              VisitConditionKey_present data none key _ hl, hv, hx]⟩
        | ok elems =>
          exact ⟨none, by simp [Validate, Visit, VisitGetArrayExpr,
            VisitConditionKey_present data none key _ hl, hv, hx, hn1, hn2, assertBool]⟩

/-- Witness of `member_op_normalised`: `tags IN ["a","b"]` on `tags = "a"` is true. -/
theorem member_op_normalised_witness :
    sampleLib.ToLower "in" = "in" ∧ sampleLib.ToLower "notin" = "notin" ∧
    sampleLib.ToLower (ReplaceAllSpaces "IN") = "in" ∧
    Validate sampleLib ⟨.GetArrayExpr ⟨"tags", 0⟩ "IN" "[\"a\",\"b\"]"⟩
      [("tags", Value.str "a")] = some (true, none) :=
  ⟨by decide, by decide, by decide,
    ((member_op_normalised sampleLib [("tags", Value.str "a")] ⟨"tags", 0⟩ "IN"
      "[\"a\",\"b\"]" (by decide) (by decide)).1 (by decide)).trans (by decide)⟩

/-! ## C12: a malformed array literal -/

/-- C12, refuted as stated: `tags in [1,]` on a record in which `tags` is present
with a nil value.  The array literal is not well-formed JSON, yet `Validate` returns
false with no error: `VisitGetArrayExpr` returns for a nil value before the literal
is parsed. -/
theorem array_malformed_nil_value_no_error :
    List.lookup "tags" [("tags", Value.nil)] = some Value.nil ∧
    sampleLib.Unmarshal "[1,]" = Except.error
      (GoError.errorString "invalid character ']' looking for beginning of value") ∧
    Validate sampleLib ⟨.GetArrayExpr ⟨"tags", 0⟩ "in" "[1,]"⟩ [("tags", Value.nil)] =
      some (false, none) :=
  ⟨by decide, rfl, by decide⟩

/-- C12 (amended): for every root array-membership expression whose array literal
text is not a well-formed JSON array and every record in which the referenced field
is present with a non-nil value, `Validate` returns `(false, err)` where `err` has
cause `ErrParseData` and its message starts with the field name, whatever the
operator token is; `New` itself succeeds on such a source, the failure arises at
evaluation. -/
theorem array_malformed_literal_error (lib : GoLib) (parser : Parser) (src : String)
    (data : Record) (key : ConditionKeyContext) (op array : String) (v : Value) (e : GoError)
    (hparse : parser src = (.GetArrayExpr key op array, []))
    (hv : List.lookup key.COL data = some v) (hnn : v ≠ Value.nil)
    (hbad : lib.Unmarshal array = Except.error e) :
    New parser src = (some ⟨.GetArrayExpr key op array⟩, none) ∧
    Validate lib ⟨.GetArrayExpr key op array⟩ data =
      some (false, some (Wrap ErrParseData (key.COL ++ " " ++ e.Error))) ∧
    (Wrap ErrParseData (key.COL ++ " " ++ e.Error)).Cause = ErrParseData ∧
    (Wrap ErrParseData (key.COL ++ " " ++ e.Error)).Error =
      key.COL ++ (" " ++ (e.Error ++ ": parse data error")) := by
  refine ⟨?_, ?_, rfl, ?_⟩
  · simp [New, hparse]
  · simp [Validate, Visit, VisitGetArrayExpr, VisitConditionKey_present data none key v hv,
      hnn, hbad, ConditionKeyContext.GetText]
  · simp [Wrap, ErrParseData, GoError.Error, String.append_assoc]

/-- Witness of `array_malformed_literal_error`: `tags in [1,]` on `tags = "t"`. -/
theorem array_malformed_literal_error_witness :
    New (fun _ => (.GetArrayExpr ⟨"tags", 0⟩ "in" "[1,]", [])) "tags in [1,]" =
      (some ⟨.GetArrayExpr ⟨"tags", 0⟩ "in" "[1,]"⟩, none) ∧
    Validate sampleLib ⟨.GetArrayExpr ⟨"tags", 0⟩ "in" "[1,]"⟩ [("tags", Value.str "t")] =
      some (false, some (Wrap ErrParseData
        "tags invalid character ']' looking for beginning of value")) :=
  have h := array_malformed_literal_error sampleLib
    (fun _ => (.GetArrayExpr ⟨"tags", 0⟩ "in" "[1,]", [])) "tags in [1,]"
    [("tags", Value.str "t")] ⟨"tags", 0⟩ "in" "[1,]" (Value.str "t")
    (GoError.errorString "invalid character ']' looking for beginning of value")
    rfl (by decide) (by decide) rfl
  ⟨h.1, h.2.1.trans (by decide)⟩

/-! ## C13: an unknown operator token -/

/-- An unknown operator token yields false and is not an error wherever the
comparison gets a value to compare: for a numeric comparison on a present field
whose text and literal parse, a string comparison on a field present with a
non-nil value, and an array-membership expression on a present field whose
literal parses, an operator token that is none of the recognised ones for its kind
gives `(false, nil)`; likewise a logical expression whose operands both succeed
and whose token lowercases to neither `and` nor `or`. -/
theorem unknown_operator_false (lib : GoLib) (data : Record) :
    (∀ (key : ConditionKeyContext) (op number : String) (v : Value) (x y : Float64),
      List.lookup key.COL data = some v →
      lib.ParseFloat (Sprint lib v) = Except.ok x →
      lib.ParseFloat (Trim number "\"") = Except.ok y →
      op ≠ ">" → op ≠ "<" → op ≠ "==" → op ≠ "!=" → op ≠ ">=" → op ≠ "<=" →
      Validate lib ⟨.GetNumExpr key op number⟩ data = some (false, none)) ∧
    (∀ (key : ConditionKeyContext) (op lit : String) (v : Value),
      List.lookup key.COL data = some v → v ≠ Value.nil →
      op ≠ "=~" → op ≠ "!~" → op ≠ "==" → op ≠ "!=" →
      Validate lib ⟨.GetStringExpr key op lit⟩ data = some (false, none)) ∧
    (∀ (key : ConditionKeyContext) (op array : String) (v : Value) (elems : List Value),
      List.lookup key.COL data = some v →
      lib.Unmarshal array = Except.ok elems →
      lib.ToLower (ReplaceAllSpaces op) ≠ "in" → lib.ToLower (ReplaceAllSpaces op) ≠ "notin" →
      Validate lib ⟨.GetArrayExpr key op array⟩ data = some (false, none)) ∧
    (∀ (e0 e1 : ExprContext) (opTok : String) (b0 b1 : Bool),
      Validate lib ⟨e0⟩ data = some (b0, none) →
      Validate lib ⟨e1⟩ data = some (b1, none) →
      lib.ToLower opTok ≠ "and" → lib.ToLower opTok ≠ "or" →
      Validate lib ⟨.AndOr e0 opTok e1⟩ data = some (false, none)) := by
  refine ⟨?_, ?_, ?_, ?_⟩
  · intro key op number v x y hv hx hy h1 h2 h3 h4 h5 h6
    have hnn : v ≠ Value.nil := by
      rintro rfl
      obtain ⟨e, he⟩ := lib.ParseFloat_nil
      simp [Sprint, he] at hx
    simp [Validate, Visit, VisitGetNumExpr, VisitConditionKey_present data none key v hv,
      hnn, hx, hy, h1, h2, h3, h4, h5, h6, assertBool]
  · intro key op lit v hv hnn h1 h2 h3 h4
    simp [Validate, Visit, VisitGetStringExpr, VisitConditionKey_present data none key v hv,
      hnn, h1, h2, h3, h4, assertBool]
  · intro key op array v elems hv hp h1 h2
    by_cases hnn : v = Value.nil
    · subst hnn
      simp [Validate, Visit, VisitGetArrayExpr, VisitConditionKey_present data none key _ hv,
        assertBool]
    · simp [Validate, Visit, VisitGetArrayExpr, VisitConditionKey_present data none key v hv,
        hnn, hp, h1, h2, assertBool]
  · intro e0 e1 opTok b0 b1 h0 h1 hand hor
    have hf0 : ∀ E, Visit lib e0 ⟨data, E⟩ = some (Value.bool b0, ⟨data, lastErr none E⟩) :=
      Visit_of_Validate_ok lib data e0 b0 h0
    have hf1 : ∀ E, Visit lib e1 ⟨data, E⟩ = some (Value.bool b1, ⟨data, lastErr none E⟩) :=
      Visit_of_Validate_ok lib data e1 b1 h1
    rw [Validate_AndOr_bools lib data e0 e1 opTok b0 b1 none none hf0 hf1]
    simp [lastErr, andOrBool, hand, hor]

/-- Evaluation of `unknown_operator_false`: `age <> 18` on `age = 30` and
`age > 18 xor age > 10` on the same record give `(false, nil)`. -/
theorem unknown_operator_false_witness :
    Validate sampleLib ⟨.GetNumExpr ⟨"age", 0⟩ "<>" "18"⟩ [("age", Value.int 30)] =
      some (false, none) ∧
    Validate sampleLib ⟨.GetNumExpr ⟨"age", 0⟩ ">" "18"⟩ [("age", Value.int 30)] =
      some (true, none) ∧
    Validate sampleLib
      ⟨.AndOr (.GetNumExpr ⟨"age", 0⟩ ">" "18") "xor" (.GetNumExpr ⟨"age", 13⟩ ">" "10")⟩
      [("age", Value.int 30)] = some (false, none) :=
  ⟨(unknown_operator_false sampleLib [("age", Value.int 30)]).1 ⟨"age", 0⟩ "<>" "18"
      (Value.int 30) ⟨false, 1027, 3940649673949184⟩ ⟨false, 1027, 562949953421312⟩
      (by decide) rfl rfl (by decide) (by decide) (by decide) (by decide) (by decide) (by decide),
    by decide,
    (unknown_operator_false sampleLib [("age", Value.int 30)]).2.2.2
      (.GetNumExpr ⟨"age", 0⟩ ">" "18") (.GetNumExpr ⟨"age", 13⟩ ">" "10") "xor" true true
      (by decide) (by decide) (by decide) (by decide)⟩

/-- C13, the failing input: the string comparison `name ~= "b"`, whose operator
token is none of `=~`, `!~`, `==`, `!=`, on a record in which `name` is present
with a nil value.  The map lookup succeeds and nothing has to be parsed, yet
`Validate` does not return `(false, nil)`: `VisitGetStringExpr` returns nil
without recording an error and the assertion `res.(bool)` panics. -/
theorem unknown_string_op_nil_value_panics :
    List.lookup "name" [("name", Value.nil)] = some Value.nil ∧
    ("~=" ≠ "=~" ∧ "~=" ≠ "!~" ∧ "~=" ≠ "==" ∧ "~=" ≠ "!=") ∧
    VisitConditionKey ⟨[("name", Value.nil)], none⟩ ⟨"name", 0⟩ =
      (Value.nil, ⟨[("name", Value.nil)], none⟩) ∧
    Validate sampleLib ⟨.GetStringExpr ⟨"name", 0⟩ "~=" "\"b\""⟩ [("name", Value.nil)] = none ∧
    Validate sampleLib ⟨.GetStringExpr ⟨"name", 0⟩ "~=" "\"b\""⟩ [("name", Value.nil)] ≠
      some (false, none) := by
  decide

/-! ## C14: grouping -/

/-- C14, refuted as stated: as the left operand of `and` on the record `a = 5`
(no field `b`), the grouped `(b > 1)` and the plain `b > 1` both fail, but the
logical expression does not return the same error: `err,(b>1)` for the grouped
operand and `err,b>1` for the plain one. -/
theorem grouping_operand_error_text :
    Validate sampleLib
      ⟨.AndOr (.Parent (.GetNumExpr ⟨"b", 1⟩ ">" "1")) "and" (.GetNumExpr ⟨"a", 12⟩ ">" "1")⟩
      [("a", Value.int 5)] = some (false, some (GoError.errorString "err,(b>1)")) ∧
    Validate sampleLib
      ⟨.AndOr (.GetNumExpr ⟨"b", 0⟩ ">" "1") "and" (.GetNumExpr ⟨"a", 10⟩ ">" "1")⟩
      [("a", Value.int 5)] = some (false, some (GoError.errorString "err,b>1")) ∧
    Validate sampleLib
      ⟨.AndOr (.Parent (.GetNumExpr ⟨"b", 1⟩ ">" "1")) "and" (.GetNumExpr ⟨"a", 12⟩ ">" "1")⟩
      [("a", Value.int 5)] ≠
    Validate sampleLib
      ⟨.AndOr (.GetNumExpr ⟨"b", 0⟩ ">" "1") "and" (.GetNumExpr ⟨"a", 10⟩ ">" "1")⟩
      [("a", Value.int 5)] := by
  decide

theorem Visit_Parent_frame (lib : GoLib) (d : Record) (e : ExprContext) (v : Value)
    (W : Option GoError) (h : ∀ E, Visit lib e ⟨d, E⟩ = some (v, ⟨d, lastErr W E⟩)) :
    ∀ E, Visit lib (.Parent e) ⟨d, E⟩ = some (v, ⟨d, lastErr W E⟩) := by
  intro E
  simp [Visit, h]

theorem visitValue_of_frame (lib : GoLib) (d : Record) (e : ExprContext) (v : Value)
    (W : Option GoError) (h : ∀ E, Visit lib e ⟨d, E⟩ = some (v, ⟨d, lastErr W E⟩)) :
    visitValue lib e d = some v := by
  simp [visitValue, h]

/-- C14 (amended): grouping is transparent except for the text of the error that
`VisitAndOr` builds.  For every expression `e` and every record, validating
`( e )` at the root gives exactly the result of validating `e`.  As an operand of
a logical expression, `( e )` in place of `e` gives the same result (same boolean,
same error) whenever the visit of `e` does not yield nil, and also when it is the
right operand and the left operand's visit yields nil; when the visit of `e`
yields nil and `VisitAndOr` reports it, the error is `err,` followed by the
operand's source text, which is `(` text of `e` `)` for the grouped operand and
the text of `e` for the plain one. -/
theorem grouping_transparent_up_to_text (lib : GoLib) (data : Record)
    (e other : ExprContext) (opTok : String) :
    Validate lib ⟨.Parent e⟩ data = Validate lib ⟨e⟩ data ∧
    (visitValue lib e data ≠ some Value.nil →
      Validate lib ⟨.AndOr (.Parent e) opTok other⟩ data =
        Validate lib ⟨.AndOr e opTok other⟩ data ∧
      Validate lib ⟨.AndOr other opTok (.Parent e)⟩ data =
        Validate lib ⟨.AndOr other opTok e⟩ data) ∧
    (visitValue lib e data = some Value.nil →
      Validate lib ⟨.AndOr (.Parent e) opTok other⟩ data =
        some (false, some (GoError.errorString ("err," ++ ("(" ++ e.GetText ++ ")")))) ∧
      Validate lib ⟨.AndOr e opTok other⟩ data =
        some (false, some (GoError.errorString ("err," ++ e.GetText))) ∧
      (visitValue lib other data = some Value.nil →
        Validate lib ⟨.AndOr other opTok (.Parent e)⟩ data =
          Validate lib ⟨.AndOr other opTok e⟩ data) ∧
      (visitValue lib other data ≠ some Value.nil →
        Validate lib ⟨.AndOr other opTok (.Parent e)⟩ data =
          some (false, some (GoError.errorString ("err," ++ ("(" ++ e.GetText ++ ")")))) ∧
        Validate lib ⟨.AndOr other opTok e⟩ data =
          some (false, some (GoError.errorString ("err," ++ e.GetText))))) := by
  obtain ⟨v, W, hs, -, h⟩ := Visit_frame lib data e
  obtain ⟨u, U, hu, -, ho⟩ := Visit_frame lib data other
  have hP := Visit_Parent_frame lib data e v W h
  have hv := visitValue_of_frame lib data e v W h
  have hou := visitValue_of_frame lib data other u U ho
  rw [hv, hou]
  refine ⟨by simp [Validate, Visit], ?_, ?_⟩
  · intro hne
    rcases hs with rfl | ⟨b, rfl⟩
    · exact absurd rfl hne
    · rcases hu with rfl | ⟨c, rfl⟩
      · exact ⟨by
            rw [Validate_AndOr_right_nil lib data _ other opTok b W U hP ho,
              Validate_AndOr_right_nil lib data e other opTok b W U h ho],
          by
            rw [Validate_AndOr_left_nil lib data other _ opTok U _ W ho hP,
              Validate_AndOr_left_nil lib data other e opTok U _ W ho h]⟩
      · exact ⟨by
            rw [Validate_AndOr_bools lib data _ other opTok b c W U hP ho,
              Validate_AndOr_bools lib data e other opTok b c W U h ho],
          by
            rw [Validate_AndOr_bools lib data other _ opTok c b U W ho hP,
              Validate_AndOr_bools lib data other e opTok c b U W ho h]⟩
  · intro hnil
    obtain rfl : v = Value.nil := by simpa using hnil
    refine ⟨?_, ?_, ?_, ?_⟩
    · rw [Validate_AndOr_left_nil lib data _ other opTok W u U hP ho]
      rfl
    · rw [Validate_AndOr_left_nil lib data e other opTok W u U h ho]
    · intro hunil
      obtain rfl : u = Value.nil := by simpa using hunil
      rw [Validate_AndOr_left_nil lib data other _ opTok U _ W ho hP,
        Validate_AndOr_left_nil lib data other e opTok U _ W ho h]
    · intro hune
      rcases hu with rfl | ⟨c, rfl⟩
      · exact absurd rfl hune
      · refine ⟨?_, ?_⟩
        · rw [Validate_AndOr_right_nil lib data other _ opTok c U W ho hP]
          rfl
        · rw [Validate_AndOr_right_nil lib data other e opTok c U W ho h]

/-- Witness of `grouping_transparent_up_to_text`: on `age = 30`, where `age > 18`
visits to a boolean, `(age > 18) and age < 40` gives the result of
`age > 18 and age < 40`, true with no error. -/
theorem grouping_transparent_up_to_text_witness :
    visitValue sampleLib (.GetNumExpr ⟨"age", 1⟩ ">" "18") [("age", Value.int 30)] ≠
      some Value.nil ∧
    Validate sampleLib
      ⟨.AndOr (.GetNumExpr ⟨"age", 1⟩ ">" "18") "and" (.GetNumExpr ⟨"age", 15⟩ "<" "40")⟩
      [("age", Value.int 30)] = some (true, none) ∧
    Validate sampleLib
      ⟨.AndOr (.Parent (.GetNumExpr ⟨"age", 1⟩ ">" "18")) "and"
        (.GetNumExpr ⟨"age", 15⟩ "<" "40")⟩
      [("age", Value.int 30)] = some (true, none) :=
  ⟨by decide, by decide,
    ((grouping_transparent_up_to_text sampleLib [("age", Value.int 30)]
      (.GetNumExpr ⟨"age", 1⟩ ">" "18") (.GetNumExpr ⟨"age", 15⟩ "<" "40") "and").2.1
      (by decide)).1.trans (by decide)⟩

/-! ## C17 and C18: the type assertions -/

/-- C17: type-assertion safety.  For every expression tree and every record none of
whose values is nil, visiting the expression from any value of `Err` does not
panic, returns nil or a boolean, and returns nil only with `Err` set afterwards;
and `Validate` yields a `(bool, error)` result. -/
theorem visit_bool_or_nil (lib : GoLib) (data : Record) (e : ExprContext)
    (hnil : NoNilValues data) :
    (∀ E, ∃ v q, Visit lib e ⟨data, E⟩ = some (v, q) ∧
      (v = Value.nil ∨ ∃ b, v = Value.bool b) ∧ (v = Value.nil → q.Err ≠ none)) ∧
    ∃ b err, Validate lib ⟨e⟩ data = some (b, err) := by
  obtain ⟨v, W, hs, hn, h⟩ := Visit_frame lib data e
  constructor
  · intro E
    refine ⟨v, _, h E, hs, fun hv => ?_⟩
    have hW := hn hnil hv
    cases W with
    | none => exact absurd rfl hW
    | some w => simp [lastErr]
  · rw [Validate_of_frame lib data e v W h]
    cases W with
    | some w => exact ⟨false, some w, rfl⟩
    | none =>
      rcases hs with rfl | ⟨b, rfl⟩
      · exact absurd rfl (hn hnil rfl)
      · exact ⟨b, none, rfl⟩

/-- Witness of `visit_bool_or_nil`: `(age > 18 and name =~ "bo") or tags in ["a"]`
on the record `age = 30`, `name = "bob"` returns a result. -/
theorem visit_bool_or_nil_witness :
    NoNilValues [("age", Value.int 30), ("name", Value.str "bob")] ∧
    ∃ b err, Validate sampleLib
      ⟨.AndOr (.Parent (.AndOr (.GetNumExpr ⟨"age", 1⟩ ">" "18") "and"
          (.GetStringExpr ⟨"name", 14⟩ "=~" "\"bo\""))) "or"
        (.GetArrayExpr ⟨"tags", 30⟩ "in" "[\"a\"]")⟩
      [("age", Value.int 30), ("name", Value.str "bob")] = some (b, err) :=
  ⟨NoNilValues_of_forall _ (by decide),
    (visit_bool_or_nil sampleLib [("age", Value.int 30), ("name", Value.str "bob")] _
      (NoNilValues_of_forall _ (by decide))).2⟩

/-- C18: for some input `Validate` has no `(bool, error)` result.  For every root
numeric or string comparison and every record in which the referenced field is
present with a nil value, the field lookup returns nil without setting `Err`, the
comparison returns nil, and `Validate` applies `res.(bool)` to nil, a failed
assertion, instead of returning an error. -/
theorem nil_value_comparison_panics (lib : GoLib) (data : Record) (key : ConditionKeyContext)
    (op lit : String) (h : List.lookup key.COL data = some Value.nil) :
    VisitConditionKey ⟨data, none⟩ key = (Value.nil, ⟨data, none⟩) ∧
    VisitGetNumExpr lib ⟨data, none⟩ key op lit = (Value.nil, ⟨data, none⟩) ∧
    VisitGetStringExpr lib ⟨data, none⟩ key op lit = (Value.nil, ⟨data, none⟩) ∧
    assertBool Value.nil = none ∧
    Validate lib ⟨.GetNumExpr key op lit⟩ data = none ∧
    Validate lib ⟨.GetStringExpr key op lit⟩ data = none := by
  have hk := VisitConditionKey_present data none key Value.nil h
  refine ⟨hk, ?_, ?_, rfl, ?_, ?_⟩
  · simp [VisitGetNumExpr, hk]
  · simp [VisitGetStringExpr, hk]
  · simp [Validate, Visit, VisitGetNumExpr, hk, assertBool]
  · simp [Validate, Visit, VisitGetStringExpr, hk, assertBool]

/-- Witness of `nil_value_comparison_panics`: `name == "bob"` on a record in which
`name` is nil. -/
theorem nil_value_comparison_panics_witness :
    List.lookup "name" [("name", Value.nil)] = some Value.nil ∧
    Validate sampleLib ⟨.GetStringExpr ⟨"name", 0⟩ "==" "\"bob\""⟩ [("name", Value.nil)] =
      none :=
  ⟨by decide,
    (nil_value_comparison_panics sampleLib [("name", Value.nil)] ⟨"name", 0⟩ "==" "\"bob\""
      (by decide)).2.2.2.2.2⟩

/-! ## C19: negated operators -/

/-- C19: negated operators are exact complements when evaluation succeeds.  For
every record in which the field is present with a non-nil value, the root string
comparisons `!~` and `=~` return opposite booleans, `!=` and `==` return opposite
booleans and, when the array literal parses, `not in` and `in` return opposite
booleans, all without error; when the field is absent, `in` and `not in` both
return false. -/
theorem negated_ops_complement (lib : GoLib) (data : Record) (key : ConditionKeyContext) :
    (∀ (lit : String) (v : Value), List.lookup key.COL data = some v → v ≠ Value.nil →
      (∃ b, Validate lib ⟨.GetStringExpr key "=~" lit⟩ data = some (b, none) ∧
        Validate lib ⟨.GetStringExpr key "!~" lit⟩ data = some (!b, none)) ∧
      (∃ b, Validate lib ⟨.GetStringExpr key "==" lit⟩ data = some (b, none) ∧
        Validate lib ⟨.GetStringExpr key "!=" lit⟩ data = some (!b, none))) ∧
    (∀ (opIn opNotIn array : String) (v : Value) (elems : List Value),
      List.lookup key.COL data = some v → v ≠ Value.nil →
      lib.Unmarshal array = Except.ok elems →
      lib.ToLower (ReplaceAllSpaces opIn) = "in" →
      lib.ToLower (ReplaceAllSpaces opNotIn) = "notin" →
      ∃ b, Validate lib ⟨.GetArrayExpr key opIn array⟩ data = some (b, none) ∧
        Validate lib ⟨.GetArrayExpr key opNotIn array⟩ data = some (!b, none)) ∧
    (∀ (opIn opNotIn array : String), List.lookup key.COL data = none →
      Validate lib ⟨.GetArrayExpr key opIn array⟩ data = some (false, some (notFoundErr key)) ∧
      Validate lib ⟨.GetArrayExpr key opNotIn array⟩ data =
        some (false, some (notFoundErr key))) := by
  refine ⟨fun lit v hv hnn => ⟨⟨Contains (Sprint lib v) (Trim lit "\""), ?_, ?_⟩,
      ⟨decide (Sprint lib v = Trim lit "\""), ?_, ?_⟩⟩,
    fun opIn opNotIn array v elems hv hnn hp hin hnotin =>
      ⟨elems.any (fun e => decide (Sprint lib v = Sprint lib e)), ?_, ?_⟩,
    fun opIn opNotIn array habs => ⟨?_, ?_⟩⟩
  · simp [Validate, Visit, VisitGetStringExpr, VisitConditionKey_present data none key v hv,
      hnn, assertBool]
  · simp [Validate, Visit, VisitGetStringExpr, VisitConditionKey_present data none key v hv,
      hnn, assertBool]
  · simp [Validate, Visit, VisitGetStringExpr, VisitConditionKey_present data none key v hv,
      hnn, assertBool]
  · simp [Validate, Visit, VisitGetStringExpr, VisitConditionKey_present data none key v hv,
      hnn, assertBool]
  · simp [Validate, Visit, VisitGetArrayExpr, VisitConditionKey_present data none key v hv,
      hnn, hp, hin, assertBool]
  · simp [Validate, Visit, VisitGetArrayExpr, VisitConditionKey_present data none key v hv,
      hnn, hp, hnotin, assertBool]
  · simp [Validate, Visit, VisitGetArrayExpr, VisitConditionKey_absent data none key habs]
  · simp [Validate, Visit, VisitGetArrayExpr, VisitConditionKey_absent data none key habs]

/-- Witness of `negated_ops_complement`: on `tags = "a"`, `tags in ["a","b"]` is
true and `tags not in ["a","b"]` is false. -/
theorem negated_ops_complement_witness :
    Validate sampleLib ⟨.GetArrayExpr ⟨"tags", 0⟩ "in" "[\"a\",\"b\"]"⟩
      [("tags", Value.str "a")] = some (true, none) ∧
    Validate sampleLib ⟨.GetArrayExpr ⟨"tags", 0⟩ "not in" "[\"a\",\"b\"]"⟩
      [("tags", Value.str "a")] = some (false, none) ∧
    ∃ b, Validate sampleLib ⟨.GetArrayExpr ⟨"tags", 0⟩ "in" "[\"a\",\"b\"]"⟩
        [("tags", Value.str "a")] = some (b, none) ∧
      Validate sampleLib ⟨.GetArrayExpr ⟨"tags", 0⟩ "not in" "[\"a\",\"b\"]"⟩
        [("tags", Value.str "a")] = some (!b, none) :=
  ⟨by decide, by decide,
    (negated_ops_complement sampleLib [("tags", Value.str "a")] ⟨"tags", 0⟩).2.1
      "in" "not in" "[\"a\",\"b\"]" (Value.str "a") [Value.str "a", Value.str "b"]
      (by decide) (by decide) rfl (by decide) (by decide)⟩

/-! ## C20: swapping the operands of a logical expression -/

theorem andOrBool_comm (lib : GoLib) (opTok : String) (b0 b1 : Bool) :
    andOrBool lib opTok b0 b1 = andOrBool lib opTok b1 b0 := by
  simp only [andOrBool, Bool.and_comm b0 b1, Bool.or_comm b0 b1]

/-- C20: logical expressions are commutative up to the error value.  For every pair
of expressions, every operator token and every record (with or without nil
values), `Validate` on `e1 op e2` returns an error iff `Validate` on `e2 op e1`
returns an error, and when it does not, both return the same boolean with no
error. -/
theorem andor_comm_up_to_error (lib : GoLib) (data : Record) (e1 e2 : ExprContext)
    (opTok : String) :
    (ReturnsError (Validate lib ⟨.AndOr e1 opTok e2⟩ data) ↔
      ReturnsError (Validate lib ⟨.AndOr e2 opTok e1⟩ data)) ∧
    (¬ ReturnsError (Validate lib ⟨.AndOr e1 opTok e2⟩ data) →
      ∃ b, Validate lib ⟨.AndOr e1 opTok e2⟩ data = some (b, none) ∧
        Validate lib ⟨.AndOr e2 opTok e1⟩ data = some (b, none)) := by
  obtain ⟨v1, W1, hs1, -, h1⟩ := Visit_frame lib data e1
  obtain ⟨v2, W2, hs2, -, h2⟩ := Visit_frame lib data e2
  rcases hs1 with rfl | ⟨b1, rfl⟩
  · rw [Validate_AndOr_left_nil lib data e1 e2 opTok W1 v2 W2 h1 h2]
    rcases hs2 with rfl | ⟨b2, rfl⟩
    · rw [Validate_AndOr_left_nil lib data e2 e1 opTok W2 _ W1 h2 h1]
      simp [ReturnsError]
    · rw [Validate_AndOr_right_nil lib data e2 e1 opTok b2 W2 W1 h2 h1]
      simp [ReturnsError]
  · rcases hs2 with rfl | ⟨b2, rfl⟩
    · rw [Validate_AndOr_right_nil lib data e1 e2 opTok b1 W1 W2 h1 h2,
        Validate_AndOr_left_nil lib data e2 e1 opTok W2 _ W1 h2 h1]
      simp [ReturnsError]
    · rw [Validate_AndOr_bools lib data e1 e2 opTok b1 b2 W1 W2 h1 h2,
        Validate_AndOr_bools lib data e2 e1 opTok b2 b1 W2 W1 h2 h1,
        andOrBool_comm lib opTok b2 b1]
      cases W1 <;> cases W2 <;> simp [ReturnsError, lastErr]

/-- Witness of `andor_comm_up_to_error`: `a > 1 or b > 1` and `b > 1 or a > 1` on
the record `a = 0`, `b = 5` return no error and the same boolean, true. -/
theorem andor_comm_up_to_error_witness :
    ¬ ReturnsError (Validate sampleLib
      ⟨.AndOr (.GetNumExpr ⟨"a", 0⟩ ">" "1") "or" (.GetNumExpr ⟨"b", 9⟩ ">" "1")⟩
      [("a", Value.int 0), ("b", Value.int 5)]) ∧
    Validate sampleLib
      ⟨.AndOr (.GetNumExpr ⟨"b", 9⟩ ">" "1") "or" (.GetNumExpr ⟨"a", 0⟩ ">" "1")⟩
      [("a", Value.int 0), ("b", Value.int 5)] = some (true, none) ∧
    ∃ b, Validate sampleLib
        ⟨.AndOr (.GetNumExpr ⟨"a", 0⟩ ">" "1") "or" (.GetNumExpr ⟨"b", 9⟩ ">" "1")⟩
        [("a", Value.int 0), ("b", Value.int 5)] = some (b, none) ∧
      Validate sampleLib
        ⟨.AndOr (.GetNumExpr ⟨"b", 9⟩ ">" "1") "or" (.GetNumExpr ⟨"a", 0⟩ ">" "1")⟩
        [("a", Value.int 0), ("b", Value.int 5)] = some (b, none) :=
  have hne : ¬ ReturnsError (Validate sampleLib
      ⟨.AndOr (.GetNumExpr ⟨"a", 0⟩ ">" "1") "or" (.GetNumExpr ⟨"b", 9⟩ ">" "1")⟩
      [("a", Value.int 0), ("b", Value.int 5)]) := by
    rintro ⟨b, err, h⟩
    have h2 : Validate sampleLib
        ⟨.AndOr (.GetNumExpr ⟨"a", 0⟩ ">" "1") "or" (.GetNumExpr ⟨"b", 9⟩ ">" "1")⟩
        [("a", Value.int 0), ("b", Value.int 5)] = some (true, none) := by decide
    rw [h2] at h
    simp at h
  ⟨hne, by decide,
    (andor_comm_up_to_error sampleLib [("a", Value.int 0), ("b", Value.int 5)]
      (.GetNumExpr ⟨"a", 0⟩ ">" "1") (.GetNumExpr ⟨"b", 9⟩ ">" "1") "or").2 hne⟩

/-! ## C15 and C16: the error returned by `New` -/

theorem New_no_errors (parser : Parser) (src : String) (tree : ExprContext)
    (h : parser src = (tree, [])) : New parser src = (some ⟨tree⟩, none) := by
  simp [New, h]

theorem New_errors (parser : Parser) (src : String) (tree : ExprContext) (e : GoError)
    (rest : List GoError) (h : parser src = (tree, e :: rest)) :
    New parser src = (none, some (rest.foldl (fun acc v => Wrap acc v.Error) e)) := by
  have hfold : ∀ (l : List GoError) (acc : GoError),
      l.foldl (fun (err : Option GoError) v =>
        match err with
        | none => some v
        | some e => some (Wrap e v.Error)) (some acc) =
      some (l.foldl (fun acc v => Wrap acc v.Error) acc) := by
    intro l
    induction l with
    | nil => intro acc; rfl
    | cons v l ih => intro acc; simpa using ih (Wrap acc v.Error)
  simp [New, h, hfold]

theorem Wrap_Error (err : GoError) (msg : String) :
    (Wrap err msg).Error = msg ++ ": " ++ err.Error := rfl

theorem wrapAll_contains (rest : List GoError) :
    ∀ acc : GoError,
      acc.Error.data <:+: (rest.foldl (fun acc v => Wrap acc v.Error) acc).Error.data ∧
      ∀ v ∈ rest,
        v.Error.data <:+: (rest.foldl (fun acc v => Wrap acc v.Error) acc).Error.data := by
  induction rest with
  | nil => intro acc; exact ⟨List.infix_refl _, by simp⟩
  | cons w rest ih =>
    intro acc
    obtain ⟨hacc, hrest⟩ := ih (Wrap acc w.Error)
    have hw : w.Error.data <:+: (Wrap acc w.Error).Error.data :=
      ⟨[], (": " ++ acc.Error).data, by simp [Wrap_Error, String.data_append]⟩
    have ha : acc.Error.data <:+: (Wrap acc w.Error).Error.data :=
      ⟨(w.Error ++ ": ").data, [], by simp [Wrap_Error, String.data_append]⟩
    refine ⟨ha.trans hacc, fun v hv => ?_⟩
    rcases List.mem_cons.mp hv with rfl | hv
    · exact hw.trans hacc
    · exact hrest v hv

/-- C15: for every non-empty list of syntax errors collected by the error listener
during `New`, `New` returns no `Condition` and a single error whose message
contains the message of every collected syntax error; for an empty list `New`
returns a `Condition` and a nil error. -/
theorem New_aggregates_all_errors (parser : Parser) (src : String) (tree : ExprContext)
    (errors : List GoError) (h : parser src = (tree, errors)) :
    (errors ≠ [] → ∃ err, New parser src = (none, some err) ∧
      ∀ e ∈ errors, e.Error.data <:+: err.Error.data) ∧
    (errors = [] → New parser src = (some ⟨tree⟩, none)) := by
  constructor
  · intro hne
    cases errors with
    | nil => exact absurd rfl hne
    | cons e rest =>
      refine ⟨_, New_errors parser src tree e rest h, fun x hx => ?_⟩
      obtain ⟨hacc, hrest⟩ := wrapAll_contains rest e
      rcases List.mem_cons.mp hx with rfl | hx
      · exact hacc
      · exact hrest x hx
  · intro hnil
    subst hnil
    exact New_no_errors parser src tree h

/-- Witness of `New_aggregates_all_errors`: a parser run that reports two syntax
errors. -/
theorem New_aggregates_all_errors_witness :
    ∃ err, New (fun _ => (.GetNumExpr ⟨"age", 0⟩ ">" "", [GoError.errorString "line 1:4 first",
        GoError.errorString "line 1:9 second"])) "age > > 18 $" = (none, some err) ∧
      ∀ e ∈ [GoError.errorString "line 1:4 first", GoError.errorString "line 1:9 second"],
        e.Error.data <:+: err.Error.data :=
  (New_aggregates_all_errors
    (fun _ => (.GetNumExpr ⟨"age", 0⟩ ">" "", [GoError.errorString "line 1:4 first",
      GoError.errorString "line 1:9 second"])) "age > > 18 $" _ _ rfl).1 (by simp)

theorem intercalate_go_append (s : String) (as : List String) :
    ∀ pre acc : String,
      String.intercalate.go (pre ++ acc) s as = pre ++ String.intercalate.go acc s as := by
  induction as with
  | nil => intro pre acc; rfl
  | cons a as ih =>
    intro pre acc
    simp only [String.intercalate.go]
    rw [← ih pre (acc ++ s ++ a)]
    simp only [String.append_assoc]

theorem intercalate_cons_of_ne_nil (s a : String) (l : List String) (hl : l ≠ []) :
    s.intercalate (a :: l) = a ++ s ++ s.intercalate l := by
  cases l with
  | nil => exact absurd rfl hl
  | cons b bs =>
    simp only [String.intercalate, String.intercalate.go]
    exact intercalate_go_append s bs (a ++ s) b

theorem wrapAll_Error (rest : List GoError) :
    ∀ e : GoError,
      (rest.foldl (fun acc v => Wrap acc v.Error) e).Error =
        ": ".intercalate ((e :: rest).reverse.map GoError.Error) := by
  induction rest using List.reverseRecOn with
  | nil => intro e; simp [String.intercalate, String.intercalate.go]
  | append_singleton init v ih =>
    intro e
    rw [List.foldl_append]
    simp only [List.foldl_cons, List.foldl_nil, Wrap_Error, ih e]
    have hrev : (e :: (init ++ [v])).reverse = v :: (e :: init).reverse := by simp
    rw [hrev, List.map_cons]
    rw [intercalate_cons_of_ne_nil ": " v.Error _ (by simp)]

/-- C16, refuted as stated: when the parser reports `first` and then `second`, the
error returned by `New` is `second` wrapped around `first`, and its message reads
`second: first`: the order of the reports is reversed. -/
theorem New_error_order_reversed :
    New (fun _ => (.GetNumExpr ⟨"age", 0⟩ ">" "", [GoError.errorString "line 1:4 first",
        GoError.errorString "line 1:9 second"])) "age > > 18 $" =
      (none, some (GoError.withMessage (GoError.errorString "line 1:4 first")
        "line 1:9 second")) ∧
    (GoError.withMessage (GoError.errorString "line 1:4 first") "line 1:9 second").Error =
      "line 1:9 second: line 1:4 first" ∧
    (GoError.withMessage (GoError.errorString "line 1:4 first") "line 1:9 second").Error ≠
      "line 1:4 first: line 1:9 second" := by
  decide

/-- C16 (amended): the aggregated syntax error returned by `New` lists the parser's
reports in reverse order: for every non-empty list of syntax errors `e1, ..., en`
reported in that order, the message of the returned error is
`en: ...: e2: e1`, the messages joined by `": "` from the last report to the first
(`e1` is the innermost error, each later report wraps the earlier ones). -/
theorem New_error_order (parser : Parser) (src : String) (tree : ExprContext)
    (errors : List GoError) (h : parser src = (tree, errors)) (hne : errors ≠ []) :
    ∃ err, New parser src = (none, some err) ∧
      err.Error = ": ".intercalate (errors.reverse.map GoError.Error) := by
  cases errors with
  | nil => exact absurd rfl hne
  | cons e rest => exact ⟨_, New_errors parser src tree e rest h, wrapAll_Error rest e⟩

/-- Witness of `New_error_order`: three reports `a`, `b`, `c` give the message
`c: b: a`. -/
theorem New_error_order_witness :
    ": ".intercalate ([GoError.errorString "a", GoError.errorString "b",
        GoError.errorString "c"].reverse.map GoError.Error) = "c: b: a" ∧
    ∃ err, New (fun _ => (.GetNumExpr ⟨"age", 0⟩ ">" "", [GoError.errorString "a",
        GoError.errorString "b", GoError.errorString "c"])) "age > > > 18" = (none, some err) ∧
      err.Error = ": ".intercalate ([GoError.errorString "a", GoError.errorString "b",
        GoError.errorString "c"].reverse.map GoError.Error) :=
  ⟨by decide,
    New_error_order (fun _ => (.GetNumExpr ⟨"age", 0⟩ ">" "", [GoError.errorString "a",
      GoError.errorString "b", GoError.errorString "c"])) "age > > > 18" _ _ rfl (by simp)⟩

end ConditionPkg
